import Mathlib

/-!
Verification development for the resume-analyzer / git-report utilities.

This file gives a shallow embedding, in Lean 4, of the text-processing core of
the repository:

* `scripts/analyze_resume.py` — the resume field-extraction pipeline
  (`parse_resume` and its helpers), the garbled-text detector
  (`clean_extracted_text`), the complexity scorer
  (`analyze_project_complexity`), the skill analyzer (`analyze_skills`) and
  the skill-report renderer (`generate_skill_report`);
* `scripts/content_analyzer.py` — the near-duplicate suppression
  (`merge_similar_contents`) of the git-weekly-report plugin;
* `scripts/question_generator.py` — the proficiency ladder
  (`QuestionGenerator._determine_proficiency`).

Python strings are modelled as `List Char` (`Str` below).  Python `re`
patterns are embedded as terms of a small regular-expression AST (`RE`) that
is executed by a fuel-bounded backtracking interpreter with Python's
leftmost-first match semantics (alternation tries the left branch first,
greedy quantifiers prefer longer matches, lazy quantifiers prefer shorter
ones).  Every quantifier body in the embedded patterns consumes at least one
character per iteration, so the supplied fuel — a generous multiple of
pattern size and input length — is never exhausted.

Modelling conventions:
* Python exceptions are modelled by `Option`: every operation that can raise
  at runtime (list subscripts, division) returns `none` in the failing case,
  and the pipeline is threaded through the `Option` monad.
* Arithmetic that CPython performs in IEEE-754 binary floating point (the
  abnormal-character ratio of `clean_extracted_text`, the character-overlap
  ratio of `merge_similar_contents`) is modelled as exact rational
  arithmetic over `ℚ`.
* The character-category predicates of Python's `re` (`\s`, `\d`, `\w`) and
  `str.lower` are modelled over the Unicode blocks the repository exercises
  (ASCII, Latin-1, CJK ideographs, general punctuation); code points outside
  those blocks keep the documented ASCII/CJK behaviour.
* `list(set(xs))` (Python's hash-ordered set iteration, used by
  `infer_core_systems_by_context`) is modelled by an explicit ordering
  parameter applied to the first-occurrence deduplication of `xs`; theorems
  about it hypothesise only that the parameter permutes its input.
* `datetime.now()` is modelled by explicit date/time string parameters.
-/

/-- Python strings are modelled as lists of characters. -/
abbrev Str := List Char

namespace PyStr

/-- Membership of a character in Python's whitespace class: the characters
for which `str.isspace()` holds and which `re` matches with a bare
backslash-s in text mode (ASCII whitespace, the C1 separators, NBSP, the
Unicode space separators and line/paragraph separators). -/
def isSpace (c : Char) : Bool :=
  let n := c.toNat
  (9 ≤ n && n ≤ 13) || n = 32 || (28 ≤ n && n ≤ 31) || n = 0x85 || n = 0xa0 ||
  n = 0x1680 || (0x2000 ≤ n && n ≤ 0x200a) || n = 0x2028 || n = 0x2029 ||
  n = 0x202f || n = 0x205f || n = 0x3000

/-- ASCII decimal digit (Python's backslash-d over the inputs this
repository handles). -/
def isDigit (c : Char) : Bool :=
  48 ≤ c.toNat && c.toNat ≤ 57

/-- ASCII letter. -/
def isAsciiLetter (c : Char) : Bool :=
  let n := c.toNat
  (65 ≤ n && n ≤ 90) || (97 ≤ n && n ≤ 122)

/-- CJK unified ideograph in the range U+4E00 – U+9FA5, the range written
literally in the source's character classes. -/
def isCJK (c : Char) : Bool :=
  0x4e00 ≤ c.toNat && c.toNat ≤ 0x9fa5

/-- Python's word-character class (backslash-w): ASCII alphanumerics and
underscore, the Latin-1 letters, and CJK ideographs — the alphanumeric code
points of the Unicode blocks exercised by this repository. -/
def isWordChar (c : Char) : Bool :=
  let n := c.toNat
  isAsciiLetter c || isDigit c || n = 95 ||
  (0xc0 ≤ n && n ≤ 0xff && n ≠ 0xd7 && n ≠ 0xf7) ||
  n = 0xaa || n = 0xb5 || n = 0xba ||
  (0x4e00 ≤ n && n ≤ 0x9fff)

/-- ASCII lower-casing, the fragment of `str.lower` the pipeline exercises
(CJK characters and the fixed punctuation are unaffected by `str.lower`). -/
def asciiLower (c : Char) : Char :=
  if 65 ≤ c.toNat && c.toNat ≤ 90 then Char.ofNat (c.toNat + 32) else c

/-- `str.lower`. -/
def lower (s : Str) : Str := s.map asciiLower

/-- Case-insensitive character comparison, for patterns compiled with
`re.IGNORECASE`. -/
def ciEq (a b : Char) : Bool := asciiLower a = asciiLower b

/-- `str.strip()`: remove leading and trailing whitespace. -/
def strip (s : Str) : Str :=
  ((s.dropWhile isSpace).reverse.dropWhile isSpace).reverse

/-- `str.split(sep)` for a single-character separator; like Python, the
result is never empty (splitting the empty string yields one empty field). -/
def splitOnChar (sep : Char) (s : Str) : List Str :=
  s.foldr
    (fun c acc =>
      match acc with
      | [] => [[c]]
      | cur :: rest => if c = sep then [] :: cur :: rest else (c :: cur) :: rest)
    [[]]

theorem splitOnChar_ne_nil (sep : Char) (s : Str) : splitOnChar sep s ≠ [] := by
  induction s with
  | nil => simp [splitOnChar]
  | cons c t ih =>
    simp only [splitOnChar, List.foldr] at ih ⊢
    cases h : List.foldr _ [[]] t with
    | nil => exact absurd h ih
    | cons a l => by_cases hc : c = sep <;> simp [hc]

/-- Substring test (Python's `in` on strings). -/
def isInfixB (needle : Str) : Str → Bool
  | [] => needle.isEmpty
  | c :: rest => needle.isPrefixOf (c :: rest) || isInfixB needle rest

/-- `haystack.count(ch)` for a single-character needle. -/
def countChar (c : Char) (s : Str) : Nat := s.countP (· = c)

/-- Replace every occurrence of the single character `c` by `r`
(`str.replace` with a one-character pattern). -/
def replaceChar (s : Str) (c : Char) (r : Str) : Str :=
  (s.map (fun x => if x = c then r else [x])).flatten

/-- `sep.join(parts)`. -/
def joinSep (sep : Str) : List Str → Str
  | [] => []
  | [x] => x
  | x :: y :: rest => x ++ sep ++ joinSep sep (y :: rest)

/-- Decimal rendering of a natural number (`str(n)` for a non-negative
`int`). -/
def natStr (n : Nat) : Str := Nat.toDigits 10 n

/-- `int(s)` on a non-empty string of ASCII digits. -/
def digitsToNat (s : Str) : Nat := s.foldl (fun a c => a * 10 + (c.toNat - 48)) 0

/-- Python list subscript `l[i]`; `none` models the `IndexError` raised when
the index is out of range. -/
def pyGet (l : List α) (i : Nat) : Option α := l.get? i

/-- First-occurrence deduplication: the set of elements of `xs`, listed in a
canonical order.  `list(set(xs))` is this list in an order chosen by the
interpreter (see `infer_core_systems_by_context`). -/
def dedupFirst : List Str → List Str
  | [] => []
  | x :: xs => x :: (dedupFirst (xs.filter (fun y => ¬ (y = x))))
termination_by l => l.length
decreasing_by
  exact Nat.lt_succ_of_le (List.length_filter_le _ _)

/-- `any(kw in text for kw in kws)`. -/
def anyInfix (kws : List Str) (text : Str) : Bool :=
  kws.any (fun kw => isInfixB kw text)

end PyStr

/-! ## A small backtracking regular-expression engine

Embeds the fragment of Python `re` the scripts use: literals, character
classes, concatenation, alternation (left branch first), greedy and lazy
`*` `+` `?` `{m,n}`, capture groups, look-ahead, width-one look-behind, `^`
(start of string; `re.MULTILINE` is never used) and `$` (end of string or
just before a trailing newline).  The interpreter is in continuation-passing
style; backtracking order matches CPython: at each start position the first
alternative in source order that lets the remainder of the pattern match is
chosen, and `re.search` takes the smallest start position that admits a
match. -/

namespace PyRe

open PyStr

/-- Regular-expression AST. -/
inductive RE where
  | eps
  | cls (p : Char → Bool)
  | seq (a b : RE)
  | alt (a b : RE)
  | star (greedy : Bool) (e : RE)
  | opt (greedy : Bool) (e : RE)
  | grp (i : Nat) (e : RE)
  | look (positive : Bool) (e : RE)
  | lb1 (positive : Bool) (p : Char → Bool)
  | bos
  | eos

/-- Structural size, used to bound the interpreter's recursion depth. -/
def reSize : RE → Nat
  | .eps => 1
  | .cls _ => 1
  | .seq a b => reSize a + reSize b + 1
  | .alt a b => reSize a + reSize b + 1
  | .star _ e => reSize e + 1
  | .opt _ e => reSize e + 1
  | .grp _ e => reSize e + 1
  | .look _ e => reSize e + 1
  | .lb1 _ _ => 1
  | .bos => 1
  | .eos => 1

/-- Capture environment: group index to captured substring, latest binding
first. -/
abbrev Caps := List (Nat × Str)

/-- Record a capture (Python keeps the last binding of each group). -/
def setCap (caps : Caps) (i : Nat) (v : Str) : Caps := (i, v) :: caps

/-- Look up a capture group. -/
def getCap (caps : Caps) (i : Nat) : Option Str :=
  (caps.find? (fun p => p.fst = i)).map Prod.snd

/-- The backtracking interpreter.  `s` is the remaining input, `pre` the
already-consumed input in reverse (for `^` and look-behind), `caps` the
captures so far and `k` the continuation; the result is the remaining input
and captures after a full match of the pattern and its continuation.
Quantifier iterations that consume no input are cut off, matching the
behaviour of CPython's quantifiers on the patterns embedded here (every
quantifier body consumes at least one character). -/
def reRun (fuel : Nat) (e : RE) (s pre : Str) (caps : Caps)
    (k : Str → Str → Caps → Option (Str × Caps)) : Option (Str × Caps) :=
  match fuel with
  | 0 => none
  | fuel + 1 =>
    match e with
    | .eps => k s pre caps
    | .cls p =>
      match s with
      | [] => none
      | c :: rest => if p c then k rest (c :: pre) caps else none
    | .seq a b =>
      reRun fuel a s pre caps (fun s1 p1 c1 => reRun fuel b s1 p1 c1 k)
    | .alt a b =>
      match reRun fuel a s pre caps k with
      | some r => some r
      | none => reRun fuel b s pre caps k
    | .star g e =>
      let iterate :=
        reRun fuel e s pre caps (fun s1 p1 c1 =>
          if s1.length < s.length then reRun fuel (.star g e) s1 p1 c1 k else none)
      if g then
        match iterate with
        | some r => some r
        | none => k s pre caps
      else
        match k s pre caps with
        | some r => some r
        | none => iterate
    | .opt g e =>
      if g then
        match reRun fuel e s pre caps k with
        | some r => some r
        | none => k s pre caps
      else
        match k s pre caps with
        | some r => some r
        | none => reRun fuel e s pre caps k
    | .grp i e =>
      reRun fuel e s pre caps (fun s1 p1 c1 =>
        k s1 p1 (setCap c1 i (s.take (s.length - s1.length))))
    | .look positive e =>
      let m := reRun fuel e s pre caps (fun s1 _ c1 => some (s1, c1))
      if m.isSome = positive then k s pre caps else none
    | .lb1 positive p =>
      let ok := match pre with | [] => false | c :: _ => p c
      if ok = positive then k s pre caps else none
    | .bos => if pre.isEmpty then k s pre caps else none
    | .eos =>
      match s with
      | [] => k s pre caps
      | [c] => if c = Char.ofNat 10 then k s pre caps else none
      | _ => none

/-- Fuel that bounds the recursion depth of `reRun` on patterns whose
quantifier bodies always consume input. -/
def reFuel (e : RE) (s : Str) : Nat := (reSize e + 4) * (s.length + 4)

/-- One match attempt anchored at the current position. -/
def reMatchHere (e : RE) (s pre : Str) : Option (Str × Caps) :=
  reRun (reFuel e s) e s pre [] (fun s1 _ c1 => some (s1, c1))

/-- `re.search` semantics from a given position: scan start positions left to
right; on success return the reversed prefix before the match, the matched
text, the rest of the input, and the captures. -/
def searchAux (e : RE) (pre s : Str) : Option (Str × Str × Str × Caps) :=
  match reMatchHere e s pre with
  | some (rest, caps) => some (pre, s.take (s.length - rest.length), rest, caps)
  | none =>
    match s with
    | [] => none
    | c :: rest => searchAux e (c :: pre) rest

/-- `re.search(pattern, s)`: the matched text, the rest and the captures. -/
def search (e : RE) (s : Str) : Option (Str × Str × Str × Caps) :=
  searchAux e [] s

/-- `match.group(0)` of a search. -/
def searchWhole (e : RE) (s : Str) : Option Str :=
  (search e s).map (fun r => r.2.1)

/-- `match.group(i)` of a search (the empty string if the group never
participated, which does not occur in the embedded patterns). -/
def searchGroup (e : RE) (s : Str) (i : Nat) : Option Str :=
  (search e s).map (fun r => (getCap r.2.2.2 i).getD [])

/-- `re.match(pattern, s)`: anchored at the start. -/
def matchStart (e : RE) (s : Str) : Option (Str × Caps) := reMatchHere e s []

/-- Whether `re.match` succeeds. -/
def matchStartB (e : RE) (s : Str) : Bool := (matchStart e s).isSome

/-- `re.findall`: non-overlapping matches, left to right; empty matches
advance by one character (they do not arise in the embedded patterns). -/
def findAllAux (fuel : Nat) (e : RE) (pre s : Str) : List (Str × Caps) :=
  match fuel with
  | 0 => []
  | fuel + 1 =>
    match searchAux e pre s with
    | none => []
    | some (preM, matched, rest, caps) =>
      (matched, caps) ::
        (match matched with
         | [] =>
           match rest with
           | [] => []
           | c :: r2 => findAllAux fuel e (c :: preM) r2
         | _ => findAllAux fuel e (matched.reverse ++ preM) rest)

/-- `re.findall(pattern, s)` returning raw matches with captures. -/
def findAll (e : RE) (s : Str) : List (Str × Caps) :=
  findAllAux (s.length + 1) e [] s

/-- `re.findall` for a pattern with no groups: the list of matched texts. -/
def findAllWhole (e : RE) (s : Str) : List Str := (findAll e s).map Prod.fst

/-- `re.findall` for a pattern with exactly one group: the captured texts. -/
def findAllGroup1 (e : RE) (s : Str) : List Str :=
  (findAll e s).map (fun r => (getCap r.snd 1).getD [])

/-- `re.findall` for a pattern with exactly two groups: Python returns the
tuple of groups; the callers immediately join them, so the concatenation is
returned. -/
def findAllJoin2 (e : RE) (s : Str) : List Str :=
  (findAll e s).map (fun r => (getCap r.snd 1).getD [] ++ (getCap r.snd 2).getD [])

/-- `re.sub(pattern, repl, s)` with a constant replacement string. -/
def subAllAux (fuel : Nat) (e : RE) (pre s repl : Str) : Str :=
  match fuel with
  | 0 => s
  | fuel + 1 =>
    match searchAux e pre s with
    | none => s
    | some (preM, matched, rest, _) =>
      let before := s.take (s.length - matched.length - rest.length)
      match matched with
      | [] =>
        match rest with
        | [] => before ++ repl
        | c :: r2 => before ++ repl ++ [c] ++ subAllAux fuel e (c :: preM) r2 repl
      | _ => before ++ repl ++ subAllAux fuel e (matched.reverse ++ preM) rest repl

/-- `re.sub(pattern, repl, s)`. -/
def subAll (e : RE) (s repl : Str) : Str := subAllAux (s.length + 1) e [] s repl

/-- `re.split(pattern, s)` for a pattern without groups: the text between
consecutive matches, the matched separators dropped. -/
def splitAllAux (fuel : Nat) (e : RE) (pre s : Str) : List Str :=
  match fuel with
  | 0 => [s]
  | fuel + 1 =>
    match searchAux e pre s with
    | none => [s]
    | some (preM, matched, rest, _) =>
      let before := s.take (s.length - matched.length - rest.length)
      match matched with
      | [] => [s]
      | _ => before :: splitAllAux fuel e (matched.reverse ++ preM) rest

/-- `re.split(pattern, s)`. -/
def splitAll (e : RE) (s : Str) : List Str := splitAllAux (s.length + 1) e [] s

/-! ### Pattern construction helpers -/

/-- A class that never matches (identity of alternation). -/
def rFail : RE := .cls (fun _ => false)

/-- Literal string. -/
def rLit (s : Str) : RE := s.foldr (fun c acc => .seq (.cls (fun x => x = c)) acc) .eps

/-- Literal string under `re.IGNORECASE`. -/
def rLitCI (s : Str) : RE := s.foldr (fun c acc => .seq (.cls (ciEq c)) acc) .eps

/-- Alternation over a list, first alternative preferred. -/
def rAlts (l : List RE) : RE := l.foldr .alt rFail

/-- Alternation of literal strings. -/
def rLits (l : List Str) : RE := rAlts (l.map rLit)

/-- Alternation of literal strings under `re.IGNORECASE`. -/
def rLitsCI (l : List Str) : RE := rAlts (l.map rLitCI)

/-- Concatenation of a list of patterns. -/
def rCat (l : List RE) : RE := l.foldr .seq .eps

/-- Greedy `e*`. -/
def rStar (e : RE) : RE := .star true e

/-- Greedy `e+`. -/
def rPlus (e : RE) : RE := .seq e (.star true e)

/-- Lazy `e+?`. -/
def rPlusLazy (e : RE) : RE := .seq e (.star false e)

/-- Greedy `e?`. -/
def rOpt (e : RE) : RE := .opt true e

/-- Exactly `n` copies of `e`. -/
def rRep : Nat → RE → RE
  | 0, _ => .eps
  | n + 1, e => .seq e (rRep n e)

/-- At most `n` copies of `e`, greedy. -/
def rUpTo : Nat → RE → RE
  | 0, _ => .eps
  | n + 1, e => .opt true (.seq e (rUpTo n e))

/-- Greedy `e{m,n}`: `m` required copies then up to `n - m` optional ones. -/
def rRange (m n : Nat) (e : RE) : RE := .seq (rRep m e) (rUpTo (n - m) e)

/-- Greedy `e{m,}`. -/
def rAtLeast (m : Nat) (e : RE) : RE := .seq (rRep m e) (.star true e)

/-- Character from an explicit list. -/
def rAnyOf (cs : List Char) : RE := .cls (fun c => cs.any (fun x => x = c))

/-- Character not from an explicit list. -/
def rNoneOf (cs : List Char) : RE := .cls (fun c => ¬ cs.any (fun x => x = c))

end PyRe

/-! ## Embedding of `scripts/analyze_resume.py` -/

namespace AR

open PyStr PyRe

/-- Shorthand: string literal to `Str`. -/
def L (s : String) : Str := s.toList

/-- Class `[：:]`. -/
def colonCls : RE := rAnyOf ['：', ':']

/-- Class `[：:\s]`. -/
def colonSpCls : RE := .cls (fun c => c = '：' || c = ':' || isSpace c)

/-- `\s`. -/
def sCls : RE := .cls isSpace

/-- `\d`. -/
def dCls : RE := .cls isDigit

/-- `[^\n]`. -/
def noNlCls : RE := .cls (fun c => ¬ c = '\n')

/-- `[^\n\s]` (equal to `[^\s]` since the newline is whitespace). -/
def noSpCls : RE := .cls (fun c => ¬ isSpace c)

/-- `.` with `re.DOTALL`. -/
def dotAllCls : RE := .cls (fun _ => true)

/-- `[^，。\n]`. -/
def noCpnCls : RE := rNoneOf ['，', '。', '\n']

/-- `[^，。：\n]`. -/
def noCpcnCls : RE := rNoneOf ['，', '。', '：', '\n']

/-- The name patterns of `extract_name` (analyze_resume.py lines 132-137). -/
def namePatterns : List RE :=
  [ rCat [rLit (L "姓"), rStar sCls, rLit (L "名"), colonCls, rStar sCls,
      .grp 1 (rPlus noSpCls)],
    rCat [rLitCI (L "Name"), colonCls, rStar sCls, .grp 1 (rPlus noSpCls)],
    rCat [.bos, rStar sCls, .grp 1 (rRange 2 4 noSpCls), rStar sCls,
      rOpt (rLit (L "的")), rLit (L "简历")],
    rCat [.grp 1 (rRange 2 4 noSpCls), rStar sCls, rLit (L "个人简历")] ]

/-- The pattern loop of `extract_name`: the first pattern that matches and
whose stripped first group is non-empty and not one of the stop words wins;
a match failing the filter falls through to the next pattern (lines
139-145). -/
def nameFromPatterns : List RE → Str → Option Str
  | [], _ => none
  | p :: ps, text =>
    match searchGroup p text 1 with
    | none => nameFromPatterns ps text
    | some g =>
      let name := strip g
      if ¬ name.isEmpty ∧ ¬ [L "简历", L "个人", L "我的"].any (fun w => w = name)
      then some name
      else nameFromPatterns ps text

/-- `extract_name` (lines 129-153).  The subscript `lines[0]` is guarded by
the truthiness test on `lines`, so the embedded function always returns
`some`. -/
def extract_name (text : Str) (lines : List Str) : Option Str :=
  match nameFromPatterns namePatterns text with
  | some n => some n
  | none =>
    if lines.isEmpty then some (L "未知")
    else do
      let fl ← pyGet lines 0
      let fl := strip fl
      if ¬ fl.isEmpty ∧ fl.length ≤ 10 then pure fl else pure (L "未知")

/-- The position patterns of `extract_position` (lines 158-164). -/
def positionPatterns : List RE :=
  [L "期望职位", L "应聘职位", L "目标职位", L "求职意向", L "期望岗位"].map
    (fun kw => rCat [rLit kw, colonCls, rStar sCls, .grp 1 (rPlus noNlCls)])

/-- First pattern of a list whose search succeeds, returning group 1. -/
def firstGroup1 : List RE → Str → Option Str
  | [], _ => none
  | p :: ps, text =>
    match searchGroup p text 1 with
    | some g => some g
    | none => firstGroup1 ps text

/-- `extract_position` (lines 156-179). -/
def extract_position (text : Str) : Str :=
  match firstGroup1 positionPatterns text with
  | some g => strip g
  | none =>
    if isInfixB (L "Unity") text || isInfixB (L "unity") text then
      L "Unity游戏开发工程师"
    else if isInfixB (L "Unreal") text || isInfixB (L "UE") text ||
        isInfixB (L "虚幻") text then
      L "UE4/UE5游戏开发工程师"
    else if isInfixB (L "游戏") text &&
        (isInfixB (L "开发") text || isInfixB (L "程序") text) then
      L "游戏开发工程师"
    else L "游戏开发工程师"

/-- The experience patterns of `extract_experience_years` (lines 184-189). -/
def yearsPatterns : List RE :=
  [ rCat [.grp 1 (rPlus dCls), rStar sCls, rLit (L "年"), rStar sCls,
      rOpt (rLits [L "工作", L "开发"]), rLit (L "经验")],
    rCat [rLit (L "工作年限"), colonCls, rStar sCls, .grp 1 (rPlus dCls),
      rStar sCls, rLit (L "年")],
    rCat [.grp 1 (rPlus dCls), rStar sCls, rLit (L "年以"), rOpt (rLit (L "上")),
      rOpt (rLit (L "相关")), rLit (L "经验")],
    .grp 1 (rAlts [rLit (L "应届"), rLit (L "校招"),
      rCat [rLit (L "实习"), rOpt (rLit (L "生"))]]) ]

/-- `extract_experience_years` (lines 182-199). -/
def extract_experience_years (text : Str) : Str :=
  match firstGroup1 yearsPatterns text with
  | some years =>
    if [L "应届", L "校招", L "实习", L "实习生"].any (fun w => w = years) then
      L "应届生/实习"
    else years ++ L "年"
  | none => L "未知"

/-- The school patterns of `extract_education` (lines 205-210). -/
def schoolPatterns : List RE :=
  [ .grp 1 (rCat [rPlus noNlCls, rLit (L "大学")]),
    .grp 1 (rCat [rPlus noNlCls, rLit (L "学院")]),
    rCat [rLit (L "毕业院校"), colonCls, rStar sCls, .grp 1 (rPlus noNlCls)],
    rCat [rLit (L "学历"), colonCls, rStar sCls, .grp 1 (rPlus noNlCls)] ]

/-- The degree pattern of `extract_education` (line 217). -/
def degreePattern : RE :=
  .grp 1 (rLits [L "本科", L "硕士", L "博士", L "专科", L "大专", L "研究生"])

/-- `extract_education` (lines 202-222). -/
def extract_education (text : Str) : Str :=
  match firstGroup1 schoolPatterns text with
  | some g =>
    let school := strip g
    match searchGroup degreePattern text 1 with
    | some deg => school ++ L " " ++ deg
    | none => school
  | none => []

/-- The candidate's skill lists (the `skills` sub-dictionary of the parsed
record). -/
structure Skills where
  languages : List Str
  engines : List Str
  professional : List Str
  tools : List Str
deriving DecidableEq

/-- The language-keyword table of `extract_skills` (lines 235-244). -/
def lang_keywords : List (Str × List Str) :=
  [ (L "C#", [L "C#", L "CSharp", L "csharp"]),
    (L "C++", [L "C++", L "CPP", L "cpp"]),
    (L "Python", [L "Python", L "python"]),
    (L "Lua", [L "Lua", L "lua"]),
    (L "JavaScript", [L "JavaScript", L "JS", L "js"]),
    (L "TypeScript", [L "TypeScript", L "TS", L "ts"]),
    (L "Java", [L "Java", L "java"]),
    (L "Go", [L "Go", L "Golang", L "golang"]) ]

/-- The engine-keyword table of `extract_skills` (lines 254-259). -/
def engine_keywords : List (Str × List Str) :=
  [ (L "Unity", [L "Unity", L "unity", L "Unity3D", L "U3D"]),
    (L "Unreal Engine", [L "Unreal", L "UE4", L "UE5", L "虚幻引擎", L "虚幻"]),
    (L "Godot", [L "Godot", L "godot"]),
    (L "Cocos", [L "Cocos", L "cocos", L "Cocos2d", L "Cocos Creator"]) ]

/-- The professional-skill keywords of `extract_skills` (lines 269-283). -/
def prof_keywords : List Str :=
  [ L "ECS", L "DOTS", L "Job System",
    L "Shader", L "HLSL", L "GLSL", L "ShaderLab",
    L "AI", L "行为树", L "状态机", L "FSM",
    L "寻路", L "Navigation", L "NavMesh", L "A*",
    L "网络", L "网络同步", L "帧同步", L "状态同步",
    L "热更新", L "AssetBundle", L "Addressable",
    L "UI", L "UGUI", L "FairyGUI",
    L "物理", L "Physics", L "碰撞检测",
    L "性能优化", L "内存优化", L "Draw Call",
    L "Lua", L "XLua", L "ToLua", L "SLua",
    L "设计模式", L "架构设计", L "MVC", L "MVP", L "MVVM",
    L "多线程", L "异步编程", L "UniTask", L "async/await",
    L "版本控制", L "Git", L "SVN" ]

/-- The tool keywords of `extract_skills` (lines 290-300). -/
def tool_keywords : List Str :=
  [ L "Visual Studio", L "VS Code", L "Rider",
    L "Git", L "SVN", L "Perforce",
    L "Jenkins", L "CI/CD",
    L "Jira", L "Confluence", L "Trello",
    L "Profiler", L "Frame Debugger",
    L "Blender", L "Maya", L "3ds Max",
    L "Photoshop", L "PS",
    L "Wwise", L "FMOD", L "Audio",
    L "Spine", L "Live2D" ]

/-- Keyword scan for the canonical-name tables: append the canonical name
when any synonym occurs in the text and the name is not yet present. -/
def scanCanonical (table : List (Str × List Str)) (text : Str) : List Str :=
  table.foldl
    (fun acc p =>
      if anyInfix p.2 text && ¬ acc.any (fun x => x = p.1) then acc ++ [p.1]
      else acc)
    []

/-- Keyword scan for the flat keyword lists. -/
def scanFlat (kws : List Str) (text : Str) : List Str :=
  kws.foldl
    (fun acc kw =>
      if isInfixB kw text && ¬ acc.any (fun x => x = kw) then acc ++ [kw]
      else acc)
    []

/-- `extract_skills` (lines 225-306). -/
def extract_skills (text : Str) : Skills :=
  { languages := scanCanonical lang_keywords text
    engines := scanCanonical engine_keywords text
    professional := scanFlat prof_keywords text
    tools := scanFlat tool_keywords text }

/-- The description-verb keywords of `_is_valid_project_name`
(lines 323-327). -/
def descKeywords : List Str :=
  [ L "参与", L "负责", L "开发", L "设计", L "实现", L "完成", L "使用", L "通过",
    L "积累", L "团队协作", L "项目经验", L "工作经验", L "主要职责",
    L "技术栈", L "项目描述", L "项目职责", L "项目介绍" ]

/-- The class `[\d\s\-\_\.]` of the purely-numeric test (line 342). -/
def numPuncCls (c : Char) : Bool :=
  isDigit c || isSpace c || c = '-' || c = '_' || c = '.'

/-- `re.match(r'^[\d\s\-\_\.]+$', name)` (line 342): the name is non-empty
and consists only of digits, whitespace, hyphens, underscores and dots.
(The dollar anchor also accepts a trailing newline, which is already a
member of the class, so the two readings coincide.) -/
def matchesPureNumeric (name : Str) : Bool :=
  ¬ name.isEmpty && name.all numPuncCls

/-- `_is_valid_project_name` (lines 309-345). -/
def _is_valid_project_name (name : Str) : Bool :=
  if name.isEmpty || name.length < 3 || 30 < name.length then false
  else if descKeywords.any (fun k => isInfixB k name) then false
  else if 1 < countChar '，' name + countChar '。' name + countChar '；' name then
    false
  else if isInfixB (L "，") name || isInfixB (L "。") name ||
      isInfixB (L "；") name then false
  else if matchesPureNumeric name then false
  else true

/-- The normal-character class of the garble detector (line 625): CJK
ideographs, ASCII letters and digits, whitespace, and the fixed punctuation
list (the braces, brackets, backslash and typographic quotes are written by
code point). -/
def normalPunct : List Char :=
  [ '，', '。', '、', '；', '：',
    Char.ofNat 0x201c, Char.ofNat 0x201d, Char.ofNat 0x2018, Char.ofNat 0x2019,
    '（', '）', '【', '】', Char.ofNat 0x2014, '/', Char.ofNat 92,
    '%', '@', '#', '&', '*', '(', ')', '_', '+', ',', '.', ':', ';', '!', '?',
    '<', '>', Char.ofNat 91, Char.ofNat 93, Char.ofNat 0x7b, Char.ofNat 0x7d,
    '-' ]

/-- Membership in the normal-character class. -/
def isNormalChar (c : Char) : Bool :=
  isCJK c || isAsciiLetter c || isDigit c || isSpace c ||
    normalPunct.any (fun x => x = c)

/-- The number of normal characters of a text:
`len(normal_chars.findall(text))` for the single-character class above is
the count of its characters that belong to the class. -/
def normalCount (text : Str) : Nat := text.countP isNormalChar

/-- ASCII consonant, the class
`[bcdfghjklmnpqrstvwxyzBCDFGHJKLMNPQRSTVWXYZ]` (line 643). -/
def isConsonant (c : Char) : Bool :=
  isAsciiLetter c && ¬ ['a', 'e', 'i', 'o', 'u', 'A', 'E', 'I', 'O', 'U'].any
    (fun x => x = c)

/-- The isolated-consonant pattern
`(?<![a-zA-Z])[bcd...XYZ](?![a-zA-Z])` (line 643). -/
def isolatedConsonantPattern : RE :=
  rCat [.lb1 false isAsciiLetter, .cls isConsonant, .look false (.cls isAsciiLetter)]

/-- The special-character-run pattern `[^\w一-龥]{4,}` (line 646);
the CJK range is contained in the modelled word class. -/
def specialRunPattern : RE := rAtLeast 4 (.cls (fun c => ¬ isWordChar c))

/-- Control characters `[\x00-\x08\x0b-\x0c\x0e-\x1f]` (line 650). -/
def isCtrlChar (c : Char) : Bool :=
  let n := c.toNat
  n ≤ 8 || n = 0x0b || n = 0x0c || (0x0e ≤ n && n ≤ 0x1f)

/-- The four garbage patterns (lines 649-654): control characters, the two
UTF-8-read-as-Latin-1 signatures, and the mis-decoded replacement
character. -/
def garbagePatterns : List RE :=
  [ .cls isCtrlChar,
    rCat [rLit (L "Ã"), .cls (fun c => 0xa0 ≤ c.toNat && c.toNat ≤ 0xbf)],
    rCat [rLit (L "Â"), .cls (fun c => 0xa0 ≤ c.toNat && c.toNat ≤ 0xbf)],
    rLit (L "ï¿½") ]

/-- The whitespace-run pattern `\s+` (line 662). -/
def wsRunPattern : RE := rPlus sCls

/-- Rational division; `none` models Python's `ZeroDivisionError`. -/
def pyDivQ (a b : ℚ) : Option ℚ := if b = 0 then none else some (a / b)

/-- The cleanup pass of `clean_extracted_text` before the garbage-pattern
loop (lines 639-646): strip isolated consonants, collapse special-character
runs. -/
def cleanStep2 (text : Str) : Str :=
  subAll specialRunPattern (subAll isolatedConsonantPattern text []) (L " ")

/-- The garbage-pattern loop (lines 656-659), starting from a given flag:
each pattern found in the progressively cleaned text sets the flag and is
removed. -/
def garbageScan (start : Str × Bool) : List RE → Str × Bool
  | [] => start
  | p :: ps =>
    let next :=
      if (search p start.1).isSome then (subAll p start.1 [], true) else start
    garbageScan next ps

/-- `clean_extracted_text` (lines 612-664).  The abnormal-character ratio
`1 - normal_count / total_chars`, a float division in the source, is modelled
as exact rational arithmetic; the division is guarded by the emptiness test
exactly as in the source. -/
def clean_extracted_text (text : Str) : Option (Str × Bool) :=
  if text.isEmpty then some ([], false)
  else
    let total := text.length
    if total = 0 then some ([], false)
    else do
      let frac ← pyDivQ (normalCount text : ℚ) (total : ℚ)
      let hasGarbage0 : Bool := decide ((1 : ℚ) - frac > 3 / 10)
      let cleaned2 := cleanStep2 text
      let scanned := garbageScan (cleaned2, hasGarbage0) garbagePatterns
      pure (strip (subAll wsRunPattern scanned.1 (L " ")), scanned.2)

end AR

namespace AR

open PyStr PyRe

/-! ### Python `repr`/`str` of strings, lists and the project dictionary -/

/-- Lower-case hexadecimal digit. -/
def hexDigit (n : Nat) : Char :=
  if n < 10 then Char.ofNat (48 + n) else Char.ofNat (87 + n)

/-- Escaping of one character inside a Python string repr with the given
quote character: backslash, the quote, the short escapes, and `\xNN` for
the non-printable Latin-1 code points. -/
def escChar (quote : Char) (c : Char) : Str :=
  if c = Char.ofNat 92 then [Char.ofNat 92, Char.ofNat 92]
  else if c = quote then [Char.ofNat 92, quote]
  else if c = '\n' then [Char.ofNat 92, 'n']
  else if c = '\r' then [Char.ofNat 92, 'r']
  else if c = '\t' then [Char.ofNat 92, 't']
  else if c.toNat < 0x20 || c.toNat = 0x7f ||
      (0x80 ≤ c.toNat && c.toNat ≤ 0xa0) || c.toNat = 0xad then
    [Char.ofNat 92, 'x', hexDigit (c.toNat / 16), hexDigit (c.toNat % 16)]
  else [c]

/-- `repr(s)` for a Python string: single-quoted unless the string contains
a single quote and no double quote. -/
def pyReprStr (s : Str) : Str :=
  let sq := Char.ofNat 39
  let dq := Char.ofNat 34
  let q := if s.any (fun c => c = sq) && ¬ s.any (fun c => c = dq) then dq else sq
  [q] ++ (s.map (escChar q)).flatten ++ [q]

/-- `repr(l)` for a Python list of strings. -/
def pyReprStrList (l : List Str) : Str :=
  [Char.ofNat 91] ++ joinSep (L ", ") (l.map pyReprStr) ++ [Char.ofNat 93]

/-! ### Meaningful-description extraction -/

/-- The labelled-description patterns of `extract_meaningful_description`
(lines 670-673). -/
def descPatterns : List RE :=
  [ rCat [rLits [L "项目描述", L "项目介绍", L "项目简介", L "描述"], colonCls,
      rStar sCls,
      .grp 1 (rCat [rPlus noNlCls,
        rStar (rCat [rLit (L "\n"),
          .look false (rLits [L "职责", L "角色", L "技术", L "成果", L "担任"]),
          rPlus noNlCls])])],
    rCat [rLits [L "项目背景", L "背景"], colonCls, rStar sCls,
      .grp 1 (rPlus noNlCls)] ]

/-- The list-marker head class `[-•◆●\d\s\.\[\(]` (line 690). -/
def lineMarkCls (c : Char) : Bool :=
  c = '-' || c = '•' || c = '◆' || c = '●' || isDigit c || isSpace c ||
  c = '.' || c = Char.ofNat 91 || c = '('

/-- The pattern-label phase of `extract_meaningful_description`
(lines 674-682): a match whose cleaned text is garbled and shorter than 20
characters falls through to the next pattern. -/
def descFromPatterns : List RE → Str → Option (Option Str)
  | [], _ => some none
  | p :: ps, t =>
    match searchGroup p t 1 with
    | none => descFromPatterns ps t
    | some g => do
      let desc := (strip g).take 500
      let r ← clean_extracted_text desc
      if r.2 ∧ r.1.length < 20 then descFromPatterns ps t
      else some (some (if r.1.isEmpty then desc else r.1))

/-- The line-scan phase of `extract_meaningful_description` (lines 685-693):
the first stripped line of middling length that does not start with a list
marker and whose cleaning is usable. -/
def descFromLines : List Str → Option (Option Str)
  | [] => some none
  | line :: rest =>
    let line := strip line
    if 30 < line.length ∧ line.length < 300 then
      if ¬ matchStartB (.cls lineMarkCls) line then do
        let r ← clean_extracted_text line
        if (¬ r.2) ∨ 20 < r.1.length then
          some (some (if r.1.isEmpty then line.take 500 else r.1.take 500))
        else descFromLines rest
      else descFromLines rest
    else descFromLines rest

/-- `extract_meaningful_description` (lines 667-699). -/
def extract_meaningful_description (proj_text : Str) : Option Str := do
  match ← descFromPatterns descPatterns proj_text with
  | some d => pure d
  | none =>
    match ← descFromLines (splitOnChar '\n' (strip proj_text)) with
    | some d => pure d
    | none => do
      let r ← clean_extracted_text ((strip proj_text).take 500)
      if r.2 ∧ r.1.length < 20 then pure (L "[文本提取异常，建议查看原始简历]")
      else pure (if r.1.isEmpty then (strip proj_text).take 500 else r.1)

/-! ### Technical-highlight extraction -/

/-- The implementation-verb patterns of `extract_tech_highlights`
(lines 712-721); the third pattern has two groups, which the caller
concatenates. -/
def implementationPatterns : List (RE × Bool) :=
  [ (rCat [rLits [L "实现了", L "开发了", L "设计了", L "搭建了", L "完成了",
        L "构建了"], .grp 1 (rRange 5 100 noCpnCls)], false),
    (rCat [rLits [L "完成了", L "参与到", L "制作出", L "编写出", L "重构了",
        L "封装了", L "集成了", L "部署了"], .grp 1 (rRange 5 100 noCpnCls)], false),
    (rCat [rLits [L "使用", L "运用", L "应用", L "借助", L "通过"],
        .grp 1 (rRange 3 50 noCpnCls),
        rLits [L "完成", L "实现", L "开发", L "制作", L "做到"],
        .grp 2 (rRange 5 80 noCpnCls)], true),
    (rCat [rLits [L "解决", L "处理", L "克服", L "应对"], rOpt (rLit (L "了")),
        .grp 1 (rRange 5 100 noCpnCls),
        rLits [L "问题", L "困难", L "挑战", L "bug", L "Bug"]], false),
    (rCat [rLits [L "优化", L "改进", L "完善", L "提升"], rOpt (rLit (L "了")),
        .grp 1 (rRange 5 100 noCpnCls)], false),
    (rCat [rLits [L "独立", L "负责", L "主导"], rLit (L "完"), rOpt (rLit (L "成")),
        rOpt (rLit (L "了")), .grp 1 (rRange 5 100 noCpnCls)], false) ]

/-- A quantity tail `(?:\d+%?|\d+ms?|\d+秒?|X+倍?)` under `re.IGNORECASE`
(lines 737-738). -/
def quantityTail : RE :=
  rAlts
    [ rCat [rPlus dCls, rOpt (.cls (fun c => c = '%'))],
      rCat [rPlus dCls, .cls (ciEq 'm'), rOpt (.cls (ciEq 's'))],
      rCat [rPlus dCls, rOpt (rLit (L "秒"))],
      rCat [rPlus (.cls (ciEq 'X')), rOpt (rLit (L "倍"))] ]

/-- The performance patterns of `extract_tech_highlights` (lines 736-741),
compiled with `re.IGNORECASE`; they have no groups, so `findall` returns the
matched text. -/
def perfPatterns : List RE :=
  [ rCat [rLits [L "性能", L "效率", L "帧率", L "内存", L "加载"],
      rStar noCpnCls, rLits [L "提升", L "提高", L "优化", L "降低", L "减少"],
      rStar noCpnCls, quantityTail],
    rCat [rLits [L "提升", L "提高", L "优化", L "降低", L "减少"],
      rStar noCpnCls, quantityTail, rStar noCpnCls,
      rLits [L "性能", L "效率", L "帧率", L "内存", L "加载"]],
    rCat [rAlts [rLit (L "帧率"), rLitCI (L "FPS")], rStar noCpnCls,
      rLits [L "提升", L "达到"], rStar noCpnCls, rPlus dCls],
    rCat [rAlts [rCat [rLitCI (L "Draw"), rOpt (.cls (fun c => c = ' ')),
        rLitCI (L "Call")], rLitCI (L "DC")], rStar noCpnCls,
      rLits [L "减少", L "降低", L "优化"], rStar noCpnCls, rPlus dCls] ]

/-- The fixed innovation keywords (line 750). -/
def innovationKeywords : List Str :=
  [L "自定义", L "自研", L "独创", L "自主研发", L "从零搭建", L "架构设计"]

/-- Removal of all whitespace, `re.sub` with the whitespace-run pattern and
an empty replacement (lines 762-763 and 815-817). -/
def stripAllWs (s : Str) : Str := s.filter (fun c => ¬ isSpace c)

/-- The greedy first-seen deduplication loop shared by
`extract_tech_highlights` (lines 760-764) and
`extract_personal_contribution` (lines 814-818): a candidate is dropped
exactly when some already-kept string has the same whitespace-free form. -/
def dedupByStripWs (kept : List Str) : List Str → List Str
  | [] => []
  | h :: t =>
    if kept.any (fun e => stripAllWs e = stripAllWs h) then dedupByStripWs kept t
    else h :: dedupByStripWs (h :: kept) t

/-- The highlight deduplication step: first-seen deduplication followed by
the hard cap of 6 (line 766). -/
def dedupHighlightsOp (hs : List Str) : List Str :=
  (dedupByStripWs [] hs).take 6

/-- The contribution deduplication step: first-seen deduplication followed
by the hard cap of 5 (lines 814-827); when the rule sweeps produced any
candidate, `extract_personal_contribution` returns exactly this value. -/
def dedupContributionsOp (cs : List Str) : List Str :=
  (dedupByStripWs [] cs).take 5

/-- `extract_tech_highlights` (lines 702-766). -/
def extract_tech_highlights (proj_text : Str) (tech_stack : List Str) : List Str :=
  let keepSet := tech_stack ++ [L "系统", L "框架", L "优化", L "性能", L "算法"]
  let fromImpl :=
    implementationPatterns.foldl
      (fun acc pr =>
        let raw := if pr.2 then findAllJoin2 pr.1 proj_text
                   else findAllGroup1 pr.1 proj_text
        raw.foldl
          (fun acc m =>
            let highlight := strip m
            if (10 < highlight.length ∧ highlight.length < 150) ∧
                anyInfix keepSet highlight
            then acc ++ [highlight] else acc)
          acc)
      []
  let withPerf :=
    perfPatterns.foldl
      (fun acc p =>
        (findAllWhole p proj_text).foldl
          (fun acc m =>
            let highlight := strip m
            if ¬ highlight.isEmpty ∧ ¬ acc.any (fun x => x = highlight) then
              acc ++ [L "性能优化: " ++ highlight]
            else acc)
          acc)
      fromImpl
  let withInnov :=
    innovationKeywords.foldl
      (fun acc kw =>
        (findAllGroup1 (rCat [rLit kw, .grp 1 (rRange 5 80 noCpnCls)])
            proj_text).foldl
          (fun acc m =>
            let highlight := kw ++ strip m
            if ¬ acc.any (fun x => x = highlight) then acc ++ [highlight] else acc)
          acc)
      withPerf
  dedupHighlightsOp withInnov

/-! ### Personal-contribution extraction -/

/-- The responsibility patterns of `extract_personal_contribution`
(lines 780-788); the third has two groups. -/
def responsibilityPatterns : List (RE × Bool) :=
  [ (rCat [rLits [L "负责", L "主导", L "独立", L "带领", L "参与", L "协助",
        L "配合"], rOpt (rLit (L "了")), .grp 1 (rRange 5 100 noCpcnCls)], false),
    (rCat [rLits [L "我", L "本人"],
        rLits [L "负责", L "主导", L "独立", L "参与", L "完成", L "实现"],
        rOpt (rLit (L "了")), .grp 1 (rRange 5 100 noCpcnCls)], false),
    (rCat [rLits [L "担任", L "作为"], .grp 1 (rRange 3 20 noCpcnCls),
        rLits [L "负责", L "主导", L "参与"], rOpt (rLit (L "了")),
        .grp 2 (rRange 5 80 noCpcnCls)], true),
    (rCat [rLits [L "参与", L "协作", L "配合"], rOpt (rLit (L "了")),
        .grp 1 (rRange 5 100 noCpcnCls)], false),
    (rCat [rLits [L "学习", L "掌握", L "熟悉", L "了解"], rOpt (rLit (L "了")),
        .grp 1 (rRange 5 60 noCpcnCls),
        rLits [L "技术", L "工具", L "技能", L "框架"]], false),
    (rCat [rLits [L "积累", L "沉淀", L "总结"], rOpt (rLit (L "了")),
        .grp 1 (rRange 5 80 noCpcnCls),
        rLits [L "经验", L "能力", L "知识"]], false) ]

/-- The quantified-achievement patterns (lines 802-806), no groups. -/
def achievementPatterns : List RE :=
  [ rCat [rLits [L "完成", L "实现", L "交付", L "上线"], rStar noCpnCls,
      rPlus dCls, rStar noCpnCls,
      rLits [L "个", L "项", L "套", L "版", L "功能", L "模块", L "系统"]],
    rCat [rLits [L "优化", L "改进"], rStar noCpnCls, rPlus dCls,
      rStar noCpnCls, rLits [L "处", L "个", L "项", L "问题", L "Bug"]],
    rCat [rLits [L "节约", L "节省", L "减少"], rStar noCpnCls, rPlus dCls,
      rStar noCpnCls, rLits [L "时间", L "成本", L "人力", L "资源"]] ]

/-- `infer_contribution_by_role` (lines 552-577). -/
def infer_contribution_by_role (role : Str) : List Str :=
  if role = L "客户端" then
    [L "参与游戏客户端功能开发", L "负责Gameplay系统实现", L "参与UI交互逻辑开发",
     L "协助资源管理与加载优化"]
  else if role = L "服务器" then
    [L "参与服务器后端开发", L "负责网络同步逻辑实现", L "参与数据存储方案设计"]
  else if role = L "主程序" then
    [L "主导项目技术架构设计", L "负责核心系统开发", L "指导团队成员开发"]
  else if role = L "独立开发" then
    [L "独立完成项目全部开发工作", L "负责技术选型与架构设计",
     L "完成 gameplay、UI、系统等模块"]
  else []

/-- `extract_personal_contribution` (lines 769-827). -/
def extract_personal_contribution (proj_text : Str) (role : Str) : List Str :=
  let fromResp :=
    responsibilityPatterns.foldl
      (fun acc pr =>
        let raw := if pr.2 then findAllJoin2 pr.1 proj_text
                   else findAllGroup1 pr.1 proj_text
        raw.foldl
          (fun acc m =>
            let contribution := strip m
            if 5 < contribution.length ∧ contribution.length < 120 then
              acc ++ [contribution]
            else acc)
          acc)
      []
  let withAch :=
    achievementPatterns.foldl
      (fun acc p =>
        (findAllWhole p proj_text).foldl
          (fun acc m =>
            if ¬ (strip m).isEmpty ∧ ¬ acc.any (fun x => x = strip m) then
              acc ++ [strip m]
            else acc)
          acc)
      fromResp
  let unique := dedupByStripWs [] withAch
  let unique :=
    if unique.isEmpty ∧ ¬ role.isEmpty then
      let inferred := infer_contribution_by_role role
      if ¬ inferred.isEmpty then
        (inferred.take 2).map (fun c => L "[基于角色推断] " ++ c)
      else unique
    else unique
  unique.take 5

/-! ### Project details, inference, complexity -/

/-- Project-detail record (`extract_project_details`, lines 477-549). -/
structure ProjectDetails where
  project_scale : Str
  development_time : Str
  team_size : Str
  core_systems : List Str
deriving DecidableEq

/-- The development-period patterns (lines 492-497); `group(0)` — the whole
match — is stored. -/
def timePatterns : List RE :=
  [ rCat [rLits [L "开发周期", L "项目周期", L "时间"], colonCls, rStar sCls,
      .grp 1 (rPlus noNlCls)],
    rCat [.grp 1 (rCat [rRep 4 dCls, rAnyOf ['.', '-', '/'], rRange 1 2 dCls]),
      rStar sCls, rAnyOf ['-', '~', '至'], rStar sCls,
      .grp 2 (rAlts [rCat [rRep 4 dCls, rAnyOf ['.', '-', '/'], rRange 1 2 dCls],
        rLit (L "至今")])],
    rCat [.grp 1 (rRep 4 dCls), rStar sCls, rLit (L "年"), rStar sCls,
      .grp 2 (rRange 1 2 dCls), rStar sCls, rLit (L "月"), rStar sCls,
      rAnyOf ['-', '~', '至'], rStar sCls, .grp 3 (rRep 4 dCls), rStar sCls,
      rLit (L "年"), rStar sCls, .grp 4 (rRange 1 2 dCls), rStar sCls,
      rLit (L "月")],
    rCat [.grp 1 (rCat [rRep 4 dCls, rLit (L "."), rRange 1 2 dCls]), rStar sCls,
      rLit (L "-"), rStar sCls,
      .grp 2 (rAlts [rCat [rRep 4 dCls, rLit (L "."), rRange 1 2 dCls],
        rLit (L "至今")])] ]

/-- The team-size patterns (lines 505-510); `group(1)` is the digit run. -/
def teamPatterns : List RE :=
  [ rCat [rLits [L "团队规模", L "团队人数", L "团队"], colonCls, rStar sCls,
      .grp 1 (rPlus dCls), rStar sCls, rLit (L "人")],
    rCat [rLit (L "团队"), rStar sCls, .grp 1 (rPlus dCls), rStar sCls,
      rLit (L "人")],
    rCat [.grp 1 (rPlus dCls), rStar sCls, rLit (L "人团队")],
    rCat [rLits [L "团队", L "项目组"], rOpt (rLit (L "规模")), rOpt colonCls,
      rStar sCls, .grp 1 (rPlus dCls),
      .cls (fun c => isSpace c || c = '人')] ]

/-- The core-system keyword table (lines 518-530), in source order. -/
def system_keywords : List (Str × List Str) :=
  [ (L "战斗系统", [L "战斗系统", L "战斗", L "技能系统", L "连招", L "打击感"]),
    (L "AI系统", [L "AI系统", L "行为树", L "状态机", L "寻路", L "Navigation",
      L "NPC行为"]),
    (L "网络同步", [L "网络同步", L "帧同步", L "状态同步", L "服务器", L "联机",
      L "多人"]),
    (L "UI系统", [L "UI系统", L "界面", L "UGUI", L "FairyGUI", L "UI框架"]),
    (L "资源管理", [L "资源管理", L "AssetBundle", L "Addressable", L "热更新",
      L "资源加载"]),
    (L "物理系统", [L "物理系统", L "碰撞检测", L "刚体", L "Physics"]),
    (L "渲染系统", [L "渲染", L "Shader", L "后处理", L "光照", L "材质"]),
    (L "音频系统", [L "音频", L "音效", L "Wwise", L "FMOD", L "声音"]),
    (L "动画系统", [L "动画", L "Animation", L "Animator", L "动作", L "骨骼"]),
    (L "剧情系统", [L "剧情", L "对话系统", L "任务系统", L "叙事"]),
    (L "经济系统", [L "经济系统", L "商城", L "充值", L "货币"]) ]

/-- The usage-scale pattern `(?:日活|DAU|用户)[：:]?\s*([\d\w]+)` (line 538). -/
def dauPattern : RE :=
  rCat [rLits [L "日活", L "DAU", L "用户"], rOpt colonCls, rStar sCls,
    .grp 1 (rPlus (.cls (fun c => isDigit c || isWordChar c)))]

/-- The concurrency pattern `(?:同时在线|并发)[：:]?\s*([\d\w]+)` (line 542). -/
def concurrencyPattern : RE :=
  rCat [rLits [L "同时在线", L "并发"], rOpt colonCls, rStar sCls,
    .grp 1 (rPlus (.cls (fun c => isDigit c || isWordChar c)))]

/-- First pattern whose search succeeds, returning the whole match. -/
def firstWhole : List RE → Str → Option Str
  | [], _ => none
  | p :: ps, text =>
    match searchWhole p text with
    | some w => some w
    | none => firstWhole ps text

/-- `extract_project_details` (lines 477-549). -/
def extract_project_details (proj_text : Str) : ProjectDetails :=
  let development_time :=
    match firstWhole timePatterns proj_text with
    | some w => strip w
    | none => []
  let team_size :=
    match firstGroup1 teamPatterns proj_text with
    | some g => g ++ L "人"
    | none => []
  let core_systems :=
    system_keywords.foldl
      (fun acc p => if anyInfix p.2 proj_text then acc ++ [p.1] else acc) []
  let scaleIndicators :=
    (if isInfixB (L "日活") proj_text || isInfixB (L "DAU") proj_text ||
        isInfixB (L "用户") proj_text then
      match searchGroup dauPattern proj_text 1 with
      | some g => [L "用户规模: " ++ g]
      | none => []
    else []) ++
    (if anyInfix [L "同时在线", L "并发"] proj_text then
      match searchGroup concurrencyPattern proj_text 1 with
      | some g => [L "并发: " ++ g]
      | none => []
    else [])
  let project_scale :=
    if ¬ scaleIndicators.isEmpty then joinSep (L "，") scaleIndicators else []
  ⟨project_scale, development_time, team_size, core_systems⟩

/-- `infer_core_systems_by_context` (lines 580-609).  The final
`list(set(...))` lists the distinct inferred systems in an
interpreter-chosen order, modelled by the ordering parameter `o` applied to
the first-occurrence deduplication. -/
def infer_core_systems_by_context (o : List Str → List Str) (proj_text : Str)
    (role : Str) (tech_stack : List Str) : List Str :=
  let s1 := if anyInfix [L "Unity", L "unity"] proj_text then
      [L "资源管理", L "UI系统", L "动画系统"] else []
  let s2 := if anyInfix [L "Wwise", L "wwise"] proj_text then [L "音频系统"] else []
  let s3 := if isInfixB (L "ECS") (pyReprStrList tech_stack) then
      [L "ECS架构系统"] else []
  let s4 := if role = L "客户端" then [L "游戏玩法系统", L "UI系统", L "资源管理"]
    else if role = L "服务器" then [L "网络同步", L "数据存储", L "服务器架构"]
    else if role = L "主程序" then [L "架构设计", L "核心系统", L "技术框架"]
    else []
  let s5 := if anyInfix [L "游戏", L "玩法", L "操作", L "战斗", L "技能"] proj_text
    then [L "游戏玩法系统"] else []
  let s6 := if anyInfix [L "工作室", L "团队", L "协作", L "Git", L "SVN"] proj_text
    then [L "版本控制协作"] else []
  let s7 := if anyInfix [L "网络", L "联机", L "多人", L "同步"] proj_text
    then [L "网络同步系统"] else []
  o (dedupFirst (s1 ++ s2 ++ s3 ++ s4 ++ s5 ++ s6 ++ s7))

/-- A parsed project (the per-project dictionary built by
`extract_projects`, lines 405-470).  `inferred_core_systems` records the
presence of the optional marker key. -/
structure Project where
  name : Str
  type : Str
  role : Str
  description : Str
  tech_stack : List Str
  project_scale : Str
  development_time : Str
  team_size : Str
  core_systems : List Str
  tech_highlights : List Str
  personal_contribution : List Str
  inferred_core_systems : Bool
  complexity_score : Nat
  complexity_level : Str
  complexity_reason : Str
deriving DecidableEq

/-- `str(p)` for a project dictionary: keys in insertion order, the
`inferred_core_systems` key present exactly when the flag was set. -/
def pyReprProject (p : Project) : Str :=
  let entry := fun (k : String) (v : Str) => pyReprStr (L k) ++ L ": " ++ v
  let entries :=
    [ entry "name" (pyReprStr p.name),
      entry "type" (pyReprStr p.type),
      entry "role" (pyReprStr p.role),
      entry "description" (pyReprStr p.description),
      entry "tech_stack" (pyReprStrList p.tech_stack),
      entry "project_scale" (pyReprStr p.project_scale),
      entry "development_time" (pyReprStr p.development_time),
      entry "team_size" (pyReprStr p.team_size),
      entry "core_systems" (pyReprStrList p.core_systems),
      entry "tech_highlights" (pyReprStrList p.tech_highlights),
      entry "personal_contribution" (pyReprStrList p.personal_contribution) ] ++
    (if p.inferred_core_systems then [entry "inferred_core_systems" (L "True")]
     else []) ++
    [ entry "complexity_score" (natStr p.complexity_score),
      entry "complexity_level" (pyReprStr p.complexity_level),
      entry "complexity_reason" (pyReprStr p.complexity_reason) ]
  [Char.ofNat 0x7b] ++ joinSep (L ", ") entries ++ [Char.ofNat 0x7d]

/-- Complexity result of `analyze_project_complexity` (lines 941-945). -/
structure Complexity where
  score : Nat
  level : Str
  reason : Str
deriving DecidableEq

/-- `re.search(r'(\d+)', s)`: the leftmost maximal digit run. -/
def findFirstDigitRun : Str → Option Str
  | [] => none
  | c :: t => if isDigit c then some (c :: t.takeWhile isDigit)
              else findFirstDigitRun t

/-- `re.search(r'\d+\s*个月', s)`: some digit run is followed, after
whitespace, by the month marker. -/
def hasMonthPattern : Str → Bool
  | [] => false
  | c :: t =>
    (isDigit c && (L "个月").isPrefixOf ((t.dropWhile isDigit).dropWhile isSpace))
      || hasMonthPattern t

/-- The tech-stack-breadth bucket of `analyze_project_complexity`
(lines 843-854): score contribution and appended reasons. -/
def techBucket (tech_count : Nat) : Nat × List Str :=
  if 5 ≤ tech_count then (20, [L "技术栈丰富"])
  else if 3 ≤ tech_count then (15, [L "技术栈较丰富"])
  else if 1 ≤ tech_count then (8, [])
  else (0, [L "技术栈单一"])

/-- The system-complexity bucket (lines 856-868). -/
def systemBucket (system_count : Nat) : Nat × List Str :=
  if 4 ≤ system_count then
    (25, [L "涉及" ++ natStr system_count ++ L "个核心系统"])
  else if 2 ≤ system_count then
    (18, [L "涉及" ++ natStr system_count ++ L "个核心系统"])
  else if 1 ≤ system_count then (10, [])
  else (0, [L "未明确核心系统"])

/-- The team-size part of the scale bucket (lines 871-885): zero when the
field is empty or contains no digit run. -/
def teamBucket (team_size : Str) : Nat × List Str :=
  if ¬ team_size.isEmpty then
    match findFirstDigitRun team_size with
    | some digits =>
      let num := digitsToNat digits
      if 10 ≤ num then (20, [L "团队规模较大"])
      else if 5 ≤ num then (15, [])
      else if 3 ≤ num then (10, [])
      else (5, [])
    | none => (0, [])
  else (0, [])

/-- The development-duration floor (lines 887-893): a duration mentioning a
year or a month count floors the scale score at 15 and appends the
duration reason (the sentinel checked against the reason list never occurs
in it, so the reason is always appended). -/
def applyDurationFloor (scale0 : Nat) (reasons0 : List Str)
    (development_time : Str) : Nat × List Str :=
  if ¬ development_time.isEmpty ∧
      (isInfixB (L "年") development_time ||
        hasMonthPattern development_time) then
    let scale1 := if scale0 < 15 then 15 else scale0
    if ¬ reasons0.any (fun r => r = L "开发周期长") then
      (scale1, reasons0 ++ [L "开发周期较长"])
    else (scale1, reasons0)
  else (scale0, reasons0)

/-- The technical-highlight bucket (lines 896-908). -/
def highlightBucket (highlight_count : Nat) : Nat × List Str :=
  if 4 ≤ highlight_count then (20, [L "技术亮点突出"])
  else if 2 ≤ highlight_count then (15, [L "有技术亮点"])
  else if 1 ≤ highlight_count then (8, [])
  else (0, [L "缺少技术亮点描述"])

/-- The description-completeness bucket (lines 910-923). -/
def descBucket (desc_len : Nat) : Nat × List Str :=
  if 400 ≤ desc_len then (15, [])
  else if 200 ≤ desc_len then
    (10, if desc_len < 300 then [L "项目描述可更详细"] else [])
  else if 100 ≤ desc_len then (5, [L "项目描述较简单"])
  else (2, [L "项目描述过于简单"])

/-- `analyze_project_complexity` (lines 830-945).  The score accumulates the
five bucketed sub-scores in source order, the qualitative reasons are
collected alongside, and the returned score is `min score 100` (the level is
derived, as in the source, from the uncapped sum). -/
def analyze_project_complexity (p : Project) : Complexity :=
  let (s1, r1) := techBucket p.tech_stack.length
  let (s2, r2) := systemBucket p.core_systems.length
  let (scale0, r3) := teamBucket p.team_size
  let reasons0 := r1 ++ r2 ++ r3
  let (scale, reasons1) := applyDurationFloor scale0 reasons0 p.development_time
  let (s4, r4) := highlightBucket p.tech_highlights.length
  let (s5, r5) := descBucket p.description.length
  let score := s1 + s2 + scale + s4 + s5
  let level :=
    if 75 ≤ score then L "高"
    else if 50 ≤ score then L "中等"
    else if 30 ≤ score then L "一般"
    else L "入门"
  let reasons := reasons1 ++ r4 ++ r5
  let reason_text :=
    if ¬ reasons.isEmpty then joinSep (L "，") (reasons.take 3)
    else L "项目信息完整度一般"
  ⟨min score 100, level, reason_text⟩

/-! ### Project segmentation and the top-level parse -/

/-- The projects-section pattern (line 354):
`(?:项目经历|项目经验|Projects?)[：:\s]*\n?(.+?)(?=工作经历|教育背景|个人技能|$)`
with `re.IGNORECASE | re.DOTALL`. -/
def projectSectionPattern : RE :=
  rCat [rAlts [rLit (L "项目经历"), rLit (L "项目经验"),
      rCat [rLitCI (L "Project"), rOpt (.cls (ciEq 's'))]],
    rStar colonSpCls, rOpt (rLit (L "\n")),
    .grp 1 (rPlusLazy dotAllCls),
    .look true (rAlts [rLit (L "工作经历"), rLit (L "教育背景"),
      rLit (L "个人技能"), .eos])]

/-- The project-split pattern (line 369):
`\n(?=项目\d+[：:]|【|◆|●|\d+\.)`. -/
def projectSplitPattern : RE :=
  rCat [rLit (L "\n"),
    .look true (rAlts [rCat [rLit (L "项目"), rPlus dCls, colonCls],
      rLit (L "【"), rLit (L "◆"), rLit (L "●"),
      rCat [rPlus dCls, rLit (L ".")]])]

/-- The labelled-name pattern (line 379):
`(?:项目名称[：:]\s*|项目名[：:]\s*|Project\s*Name[：:]\s*|《|【)([^\n【】》]+)`
with `re.IGNORECASE`. -/
def projectNamePattern : RE :=
  rCat [rAlts [rCat [rLit (L "项目名称"), colonCls, rStar sCls],
      rCat [rLit (L "项目名"), colonCls, rStar sCls],
      rCat [rLitCI (L "Project"), rStar sCls, rLitCI (L "Name"), colonCls,
        rStar sCls],
      rLit (L "《"), rLit (L "【")],
    .grp 1 (rPlus (rNoneOf ['\n', '【', '】', '》']))]

/-- The leading-list-marker pattern (line 390): `^[\d\s\.\-\◆\●\*\[\(]+`. -/
def leadMarkPattern : RE :=
  rCat [.bos, rPlus (.cls (fun c => isDigit c || isSpace c || c = '.' ||
    c = '-' || c = '◆' || c = '●' || c = '*' || c = Char.ofNat 91 || c = '('))]

/-- The quoted-name pattern (line 396): a 3-to-30 character run between
ASCII quotes. -/
def quotedNamePattern : RE :=
  rCat [rAnyOf [Char.ofNat 34, Char.ofNat 39],
    .grp 1 (rRange 3 30 (rNoneOf [Char.ofNat 34, Char.ofNat 39, '\n'])),
    rAnyOf [Char.ofNat 34, Char.ofNat 39]]

/-- The role patterns (lines 428-431). -/
def rolePatterns : List RE :=
  [ rCat [rLits [L "职责", L "角色", L "担任"], colonCls, rStar sCls,
      .grp 1 (rPlus noNlCls)],
    .grp 1 (rLits [L "主程序", L "客户端", L "服务器", L "独立开发", L "程序",
      L "策划", L "美术"]) ]

/-- The per-project technology keywords (line 439). -/
def projectTechKeywords : List Str :=
  [L "Unity", L "Unreal", L "UE4", L "UE5", L "C#", L "C++", L "Lua", L "Wwise",
   L "行为树", L "ECS"]

/-- The name-resolution cascade of `extract_projects` (lines 375-400):
labelled name, cleaned first line, quoted title — each gated by
`_is_valid_project_name`.  The first-line step subscripts the result of
`split('\n')`, which is never empty, hence the `Option`. -/
def projectNameStep1 (proj_text : Str) : Option Str :=
  match searchGroup projectNamePattern proj_text 1 with
  | some g => if _is_valid_project_name (strip g) then some (strip g) else none
  | none => none

def resolveProjectName (proj_text : Str) : Option (Option Str) := do
  match projectNameStep1 proj_text with
  | some n => pure (some n)
  | none =>
    let first_line ← pyGet (splitOnChar '\n' (strip proj_text)) 0
    let cleaned_name := subAll leadMarkPattern (strip first_line) []
    if _is_valid_project_name cleaned_name then pure (some cleaned_name)
    else
      match searchGroup quotedNamePattern proj_text 1 with
      | some g =>
        if _is_valid_project_name (strip g) then pure (some (strip g))
        else pure none
      | none => pure none

/-- The inferred-core-system fallback of the per-project loop
(lines 459-464): when the explicit scan found nothing and the contextual
inference is non-empty, its result is used and the record is marked
inferred. -/
def inferredCoreSystems (o : List Str → List Str) (proj_text role : Str)
    (tech_stack detailSystems : List Str) : List Str × Bool :=
  if detailSystems.isEmpty then
    let inferred := infer_core_systems_by_context o proj_text role tech_stack
    if ¬ inferred.isEmpty then (inferred, true) else (detailSystems, false)
  else (detailSystems, false)

/-- The text-derived role of a project block (lines 387-393). -/
def projectRole (proj_text : Str) : Str :=
  match firstGroup1 rolePatterns proj_text with
  | some g => strip g
  | none => []

/-- The text-derived technology stack of a project block (lines 395-407). -/
def projectTechStack (proj_text : Str) : List Str :=
  projectTechKeywords.foldl
    (fun acc tech => if isInfixB tech proj_text then acc ++ [tech] else acc) []

/-- The project record before complexity analysis (lines 375-457): every
field except the name, the description and the core-system pair is derived
from the block text alone. -/
def buildProjectBase (i : Nat) (proj_text : Str) (project_name : Option Str)
    (meaningful_desc : Str) (csfl : List Str × Bool) : Project :=
  let ptype :=
    if anyInfix [L "2D", L "横版", L "平台"] proj_text then L "2D横版/平台"
    else if anyInfix [L "3D", L "三维"] proj_text then L "3D游戏"
    else if anyInfix [L "FPS", L "射击", L "第一人称"] proj_text then L "FPS射击"
    else if anyInfix [L "RPG", L "角色扮演"] proj_text then L "RPG"
    else if anyInfix [L "对战", L "PVP", L "MOBA"] proj_text then L "网络对战"
    else L "游戏项目"
  let role := projectRole proj_text
  let tech_stack := projectTechStack proj_text
  let details := extract_project_details proj_text
  { name := project_name.getD (L "项目" ++ natStr (i + 1))
    type := ptype
    role := role
    description := meaningful_desc
    tech_stack := tech_stack
    project_scale := details.project_scale
    development_time := details.development_time
    team_size := details.team_size
    core_systems := csfl.1
    tech_highlights := extract_tech_highlights proj_text tech_stack
    personal_contribution := extract_personal_contribution proj_text role
    inferred_core_systems := csfl.2
    complexity_score := 0
    complexity_level := []
    complexity_reason := [] }

/-- The project record after the in-place complexity update (lines 466-470). -/
def buildProjectWith (i : Nat) (proj_text : Str) (project_name : Option Str)
    (meaningful_desc : Str) (csfl : List Str × Bool) : Project :=
  let p0 := buildProjectBase i proj_text project_name meaningful_desc csfl
  let c := analyze_project_complexity p0
  { p0 with complexity_score := c.score, complexity_level := c.level,
            complexity_reason := c.reason }

/-- The body of the per-project loop of `extract_projects` (lines 375-472):
one split block (with its zero-based index) to a fully-derived `Project`. -/
def buildProject (o : List Str → List Str) (i : Nat) (proj_text : Str) :
    Option Project := do
  let project_name ← resolveProjectName proj_text
  let meaningful_desc ← extract_meaningful_description proj_text
  let csfl := inferredCoreSystems o proj_text (projectRole proj_text)
    (projectTechStack proj_text) (extract_project_details proj_text).core_systems
  pure (buildProjectWith i proj_text project_name meaningful_desc csfl)

/-- The per-block loop: blocks whose stripped text is shorter than 20
characters are skipped (lines 371-372). -/
def buildProjects (o : List Str → List Str) : List (Nat × Str) → Option (List Project)
  | [] => some []
  | (i, pt) :: rest =>
    if (strip pt).length < 20 then buildProjects o rest
    else do
      let p ← buildProject o i pt
      let ps ← buildProjects o rest
      pure (p :: ps)

/-- `extract_projects` (lines 348-474): narrow to the projects section, split
into blocks, keep at most the first five blocks. -/
def extract_projects (o : List Str → List Str) (text : Str) :
    Option (List Project) :=
  let sectionText :=
    match searchGroup projectSectionPattern text 1 with
    | some g => g
    | none => []
  let project_text := if sectionText.isEmpty then text else sectionText
  let splits := splitAll projectSplitPattern project_text
  buildProjects o ((splits.take 5).enum)

/-- The work-experience section pattern (line 953), with
`re.IGNORECASE | re.DOTALL`. -/
def workSectionPattern : RE :=
  rCat [rAlts [rLit (L "工作经历"), rLit (L "工作经验"),
      rLitCI (L "Work Experience")],
    rStar colonSpCls, rOpt (rLit (L "\n")),
    .grp 1 (rPlusLazy dotAllCls),
    .look true (rAlts [rLit (L "项目经历"), rLit (L "教育背景"),
      rLit (L "个人技能"), .eos])]

/-- `extract_work_experience` (lines 948-964). -/
def extract_work_experience (text : Str) : List Str :=
  match searchGroup workSectionPattern text 1 with
  | some g =>
    let exp_text := strip g
    (((splitOnChar '\n' exp_text).map strip).filter
      (fun l => ¬ l.isEmpty)).take 5
  | none => []

/-- The parsed resume (the dictionary returned by `parse_resume`,
lines 90-103). -/
structure Resume where
  name : Str
  position : Str
  experience_years : Str
  education : Str
  skills : Skills
  projects : List Project
  work_experience : List Str
deriving DecidableEq

/-- `parse_resume` (lines 68-126).  `o` supplies the interpreter's set
iteration order used by `infer_core_systems_by_context`; `none` would model
an uncaught exception, and the totality theorem shows it never occurs. -/
def parse_resume (o : List Str → List Str) (text : Str) : Option Resume := do
  let lines := splitOnChar '\n' text
  let name ← extract_name text lines
  let projects ← extract_projects o text
  pure
    { name := name
      position := extract_position text
      experience_years := extract_experience_years text
      education := extract_education text
      skills := extract_skills text
      projects := projects
      work_experience := extract_work_experience text }

end AR

namespace AR

open PyStr PyRe

/-! ### Skill analysis (`analyze_skills`, lines 967-1152) -/

/-- One entry of `analysis['skill_levels']`. -/
structure SkillRecord where
  skill : Str
  category : Str
  level : Str
  evidence : Str
deriving DecidableEq

/-- Overall analysis result (lines 981-988). -/
structure Analysis where
  skill_levels : List SkillRecord
  advantages : List Str
  risks : List Str
  recommendation_level : Str
  overall_assessment : Str
  suitable_positions : List Str
deriving DecidableEq

/-- The category priority table (lines 998-1003). -/
def categoryPriority (cat : Str) : Nat :=
  if cat = L "编程语言" then 1
  else if cat = L "游戏引擎" then 2
  else if cat = L "专业技能" then 3
  else if cat = L "工具" then 4
  else 99

/-- The level priority table (line 1042). -/
def levelPriority (lv : Str) : Nat :=
  if lv = L "精通" then 3 else if lv = L "熟练" then 2
  else if lv = L "了解" then 1 else 0

/-- `sum(1 for p in projects if skill in str(p))` (line 1023): the number of
projects whose serialized dictionary contains the skill token. -/
def relatedProjects (skill : Str) (projects : List Project) : Nat :=
  projects.countP (fun p => isInfixB skill (pyReprProject p))

/-- The level/evidence ladder of lines 1019-1032. -/
def skillLevelOf (skill : Str) (projects : List Project) : Str × Str :=
  let related := relatedProjects skill projects
  if 2 ≤ related then (L "精通", natStr related ++ L "个项目")
  else if related = 1 then (L "熟练", L "1个项目")
  else (L "了解", L "简历提及")

/-- Replace the record stored under `key`, keeping its position (a Python
dictionary update on an existing key). -/
def updateRecord (records : List (Str × SkillRecord × Nat)) (key : Str)
    (v : SkillRecord × Nat) : List (Str × SkillRecord × Nat) :=
  records.map (fun e => if e.1 = key then (key, v) else e)

/-- Processing of one `(skill, category)` pair of the `all_skills` list
(lines 1011-1068): empty names are skipped; a new normalized name is
appended; an existing one is replaced when the new category has strictly
higher priority, or on equal priority when the new level is strictly more
proficient. -/
def addSkillRecord (projects : List Project)
    (records : List (Str × SkillRecord × Nat)) (skill category : Str) :
    List (Str × SkillRecord × Nat) :=
  if skill.isEmpty then records
  else
    let key := strip (lower skill)
    let (level, evidence) := skillLevelOf skill projects
    let prio := categoryPriority category
    let rec' : SkillRecord := ⟨skill, category, level, evidence⟩
    match records.find? (fun e => e.1 = key) with
    | some e =>
      let existingPrio := categoryPriority e.2.1.category
      if prio = existingPrio then
        if levelPriority e.2.1.level < levelPriority level then
          updateRecord records key (rec', prio)
        else records
      else if prio < existingPrio then updateRecord records key (rec', prio)
      else records
    | none => records ++ [(key, rec', prio)]

/-- The `all_skills` list (lines 1005-1009): every detected skill tagged
with its category, in category order. -/
def allSkills (skills : Skills) : List (Str × Str) :=
  skills.languages.map (fun s => (s, L "编程语言")) ++
  skills.engines.map (fun s => (s, L "游戏引擎")) ++
  skills.professional.map (fun s => (s, L "专业技能")) ++
  skills.tools.map (fun s => (s, L "工具"))

/-- The advanced-skill list of the advantages pass (line 1094). -/
def advancedSkills : List Str :=
  [L "ECS", L "Shader", L "网络", L "AI", L "性能优化"]

/-- The first advanced skill contained in some professional skill
(lines 1095-1098; the loop breaks after the first hit). -/
def firstAdvantageSkill (professional : List Str) : List Str → Option Str
  | [] => none
  | skill :: rest =>
    if professional.any (fun s => isInfixB skill s) then some skill
    else firstAdvantageSkill professional rest

/-- The average-description-length risk of `analyze_skills`
(lines 1116-1119): the division is guarded by the projects-non-empty test
exactly as in the source. -/
def descRisk (projects : List Project) : Option (List Str) :=
  if ¬ projects.isEmpty then do
    let avg ← pyDivQ
      ((projects.map (fun p => p.description.length)).sum : ℚ)
      (projects.length : ℚ)
    pure (if avg < 100 then
      [L "项目描述较为简单，需深入了解项目细节和技术难点"] else [])
  else pure []

/-- `analyze_skills` (lines 967-1152).  The only potentially-raising
operation is the average-description-length division inside `descRisk`. -/
def analyze_skills (parsed_data : Resume) : Option Analysis := do
  let skills := parsed_data.skills
  let projects := parsed_data.projects
  let records :=
    (allSkills skills).foldl
      (fun acc sc => addSkillRecord projects acc sc.1 sc.2) []
  let skill_levels := records.map (fun e => e.2.1)
  let advantages :=
    (if skills.engines.any (fun s => s = L "Unity") then
       [L "具备Unity引擎开发经验"] else []) ++
    (if skills.engines.any (fun s => s = L "Unreal Engine") then
       [L "具备Unreal Engine开发经验"] else []) ++
    (if skills.languages.any (fun s => s = L "C#") ∧
        skills.languages.any (fun s => s = L "C++") then
       [L "同时掌握C#和C++，语言基础扎实"] else []) ++
    (if 2 ≤ projects.length then
       [L "有" ++ natStr projects.length ++ L "个项目经历，项目经验丰富"] else []) ++
    (match firstAdvantageSkill skills.professional advancedSkills with
     | some skill => [L "具备" ++ skill ++ L "相关经验"]
     | none => [])
  let advantages :=
    if advantages.isEmpty then [L "基础技能符合岗位要求"] else advantages
  let risks1 :=
    (if isInfixB (L "Unity") (pyReprStrList skills.engines) ∧
        ¬ isInfixB (L "C#") (pyReprStrList skills.languages) then
       [L "Unity经验但未见C#技能，需验证实际使用程度"] else []) ++
    (if isInfixB (L "Unreal Engine") (pyReprStrList skills.engines) ∧
        ¬ isInfixB (L "C++") (pyReprStrList skills.languages) then
       [L "Unreal经验但未见C++技能，需确认使用版本和深度"] else [])
  let risks2 ← descRisk projects
  let risks3 :=
    if ¬ [L "设计模式", L "架构"].any
        (fun kw => isInfixB kw (pyReprStrList skills.professional)) then
      [L "未见架构/设计模式相关经验，需验证代码组织能力"]
    else []
  let risks0 := risks1 ++ risks2 ++ risks3
  let risks := if risks0.isEmpty then [L "需进一步面试验证技术深度"] else risks0
  let (recommendation_level, overall_assessment) :=
    if 3 ≤ projects.length ∧ 2 ≤ skills.languages.length then
      (L "A", L "项目经验丰富，技术栈全面，强烈推荐")
    else if 2 ≤ projects.length then
      (L "B", L "项目经验良好，具备岗位所需基础能力")
    else if 1 ≤ projects.length then
      (L "C", L "项目经验有限，需谨慎评估实际能力")
    else (L "D", L "项目经验不足，建议了解学习能力和潜力")
  let suitable0 :=
    (if isInfixB (L "Unity") (pyReprStrList skills.engines) then
       [L "Unity游戏开发工程师"] else []) ++
    (if isInfixB (L "Unreal Engine") (pyReprStrList skills.engines) then
       [L "UE4/UE5游戏开发工程师"] else [])
  let suitable_positions :=
    if suitable0.isEmpty then [L "游戏开发工程师"] else suitable0
  pure ⟨skill_levels, advantages, risks, recommendation_level,
    overall_assessment, suitable_positions⟩

end AR

/-! ## Embedding of `scripts/content_analyzer.py` (`merge_similar_contents`) -/

namespace CA

open PyStr

/-- The comparison normalization (line 190):
`content.lower().replace(' ', '').replace('，', ',').replace('。', '.')`. -/
def normalizeContent (content : Str) : Str :=
  replaceChar (replaceChar (replaceChar (lower content) ' ' []) '，' [','])
    '。' ['.']

/-- `len(set(a) & set(b))`: the number of distinct characters shared by the
two strings. -/
def charSetInterCard (a b : Str) : Nat :=
  (a.eraseDups.filter (fun c => b.any (fun x => x = c))).length

/-- The similarity test of the inner loop (lines 194-204): substring in
either direction, or — for strings both longer than 10 characters — a
shared-character ratio over the longer *length* exceeding `0.8` (an exact
rational comparison here; a float one in CPython). -/
def similarPair (normalized seenItem : Str) : Bool :=
  isInfixB normalized seenItem || isInfixB seenItem normalized ||
  (10 < normalized.length && 10 < seenItem.length &&
    decide ((charSetInterCard normalized seenItem : ℚ) /
      (max normalized.length seenItem.length : ℚ) > 8 / 10))

/-- The scanning loop of `merge_similar_contents` (lines 185-208): `seen`
holds the normalized forms of the kept strings; a candidate similar to any
of them is dropped, otherwise it is kept and its normalization recorded. -/
def mergeGo (seen : List Str) : List Str → List Str
  | [] => []
  | content :: rest =>
    let normalized := normalizeContent content
    if seen.any (fun si => similarPair normalized si) then mergeGo seen rest
    else content :: mergeGo (normalized :: seen) rest

/-- `merge_similar_contents` (lines 171-210). -/
def merge_similar_contents (contents : List Str) : List Str :=
  if contents.isEmpty then [] else mergeGo [] contents

end CA

/-! ## Embedding of `scripts/question_generator.py`
(`QuestionGenerator._determine_proficiency`) -/

namespace QG

open PyStr AR

/-- `SkillProficiency` (question_generator.py lines 26-31). -/
inductive SkillProficiency where
  | BEGINNER
  | INTERMEDIATE
  | ADVANCED
deriving DecidableEq

/-- The project-count ladder at the end of `_determine_proficiency`
(lines 346-353): three or more projects give ADVANCED, at least one gives
INTERMEDIATE, and the default — zero projects — is also INTERMEDIATE. -/
def proficiencyByCount (project_count : Nat) : SkillProficiency :=
  if 3 ≤ project_count then .ADVANCED
  else if 1 ≤ project_count then .INTERMEDIATE
  else .INTERMEDIATE

/-- `QuestionGenerator._determine_proficiency` (lines 325-353).  The
`skill_data` dictionary is modelled by its optional string-valued
`proficiency` entry; an annotation outside the three recognized groups falls
through to the project-count ladder, as in the source. -/
def _determine_proficiency ( annotation : Option Str) (project_count : Nat) :
    SkillProficiency :=
  match annotation with
  | some prof =>
    if [L "精通", L "专家"].any (fun w => w = prof) then .ADVANCED
    else if [L "熟练", L "掌握"].any (fun w => w = prof) then .INTERMEDIATE
    else if [L "了解", L "入门"].any (fun w => w = prof) then .BEGINNER
    else proficiencyByCount project_count
  | none => proficiencyByCount project_count

end QG

namespace AR

open PyStr

/-! ### The skill-report renderer (`generate_skill_report`, lines 1155-1360)

The renderer is a pure function of the parsed record, the analysis and the
two clock readings (`datetime.now().strftime('%Y%m%d')` for the file name
and `...strftime('%Y-%m-%d %H:%M:%S')` for the footer); it returns the file
name and the file content.  The file-system write is outside the model. -/

/-- The level display order of the proficiency sort (line 1213). -/
def levelOrder (lv : Str) : Nat :=
  if lv = L "精通" then 0 else if lv = L "熟练" then 1
  else if lv = L "了解" then 2 else 3

/-- Code-point lexicographic strict order on strings (Python string `<`). -/
def strLt : Str → Str → Bool
  | [], [] => false
  | [], _ :: _ => true
  | _ :: _, [] => false
  | a :: as', b :: bs' =>
    if a.toNat < b.toNat then true
    else if b.toNat < a.toNat then false
    else strLt as' bs'

/-- The sort key comparison `(level_order.get(level, 3), skill)` of
line 1214, as a total preorder. -/
def skillKeyLe (x y : SkillRecord) : Bool :=
  levelOrder x.level < levelOrder y.level ||
  (levelOrder x.level = levelOrder y.level && ¬ strLt y.skill x.skill)

/-- Stable insertion into a sorted list: the new element precedes the first
strictly larger element and follows equal ones that were already present. -/
def insSorted (x : SkillRecord) : List SkillRecord → List SkillRecord
  | [] => [x]
  | y :: ys => if skillKeyLe y x then y :: insSorted x ys else x :: y :: ys

/-- Stable sort by the proficiency key (Python `list.sort(key=...)`). -/
def sortSkillRecords : List SkillRecord → List SkillRecord
  | [] => []
  | x :: xs => insSorted x (sortSkillRecords xs)

/-- The per-project block of the report (lines 1225-1318), for the 1-based
index `i`. -/
def reportProjectLines (i : Nat) (p : Project) : List Str :=
  let desc := p.description
  [L "### 项目" ++ natStr i ++ L ": " ++ p.name,
   L "- **项目类型**: " ++ p.type,
   L "- **担任角色**: " ++ (if p.role.isEmpty then L "未明确" else p.role)] ++
  (if ¬ p.team_size.isEmpty then [L "- **团队规模**: " ++ p.team_size] else []) ++
  (if ¬ p.development_time.isEmpty then
    [L "- **开发周期**: " ++ p.development_time] else []) ++
  (if ¬ p.project_scale.isEmpty then
    [L "- **项目规模**: " ++ p.project_scale] else []) ++
  [[]] ++
  (if ¬ desc.isEmpty then
    [L "**项目描述**: " ++
      (if 200 < desc.length then desc.take 200 ++ L "..." else desc), []]
   else []) ++
  (if ¬ p.tech_stack.isEmpty then
    [L "- **技术栈**: " ++ joinSep (L ", ") p.tech_stack] else []) ++
  (if ¬ p.core_systems.isEmpty then
    (if p.inferred_core_systems then
      [L "- **核心系统**（推断）: " ++ joinSep (L ", ") p.core_systems]
     else [L "- **核心系统**: " ++ joinSep (L ", ") p.core_systems])
   else []) ++
  [[]] ++
  (if ¬ p.tech_highlights.isEmpty then
    [L "**技术亮点**:"] ++
      (p.tech_highlights.take 4).map (fun h => L "  - " ++ h) ++ [[]]
   else []) ++
  (if ¬ p.personal_contribution.isEmpty then
    [L "**个人贡献**:"] ++
      (p.personal_contribution.take 3).map (fun c => L "  - " ++ c) ++ [[]]
   else []) ++
  [L "- **复杂度评估**: " ++ p.complexity_level] ++
  (if ¬ p.complexity_reason.isEmpty then
    [L "- **评估理由**: " ++ p.complexity_reason] else []) ++
  (let risks :=
    (if p.role.isEmpty then [L "职责描述不清晰，建议追问具体分工"] else []) ++
    (if desc.length < 100 then [L "项目描述较简单，建议深入了解技术细节"] else []) ++
    (if p.tech_highlights.isEmpty then
      [L "未明确技术亮点，建议询问遇到的技术难点和解决方案"] else []) ++
    (if p.personal_contribution.isEmpty then
      [L "个人贡献不突出，建议追问具体负责的工作内容"] else []) ++
    (if p.inferred_core_systems then
      [L "核心系统未明确，建议核实实际参与的系统"] else [])
  let followUp :=
    (if p.role.isEmpty then [L "你在项目中具体担任什么角色？负责哪些模块？"] else []) ++
    (if desc.length < 100 then [L "请详细描述项目的技术架构和实现方案"] else []) ++
    (if p.tech_highlights.isEmpty then
      [L "项目开发中遇到过哪些技术挑战？如何解决的？"] else []) ++
    (if p.personal_contribution.isEmpty then
      [L "在这个项目中你具体完成了哪些工作？"] else [])
  (if ¬ risks.isEmpty then [L "- **风险点**: " ++ joinSep (L "; ") risks] else []) ++
  (if ¬ followUp.isEmpty ∧ p.tech_highlights.isEmpty then
    [L "- **建议追问**:"] ++ (followUp.take 2).map (fun q => L "  - " ++ q)
   else [])) ++
  [[]]

/-- One proficiency category block (lines 1209-1219). -/
def reportCategoryLines (category : Str) (skill_levels : List SkillRecord) :
    List Str :=
  let items := skill_levels.filter (fun r => r.category = category)
  if items.isEmpty then []
  else
    let sorted := sortSkillRecords items
    [L "**" ++ category ++ L "**"] ++
    (sorted.take 10).map
      (fun r => L "- " ++ r.skill ++ L " - " ++ r.level ++ L "（" ++
        r.evidence ++ L "）") ++ [[]]

/-- 1-based enumeration helper for the numbered lists of the report. -/
def enumFrom1 (l : List Str) : List (Nat × Str) :=
  l.enum.map (fun p => (p.1 + 1, p.2))

/-- `generate_skill_report` (lines 1155-1360): the rendered Markdown report,
as the pair (file name, content).  `today` models
`datetime.now().strftime('%Y%m%d')` and `now` the footer timestamp. -/
def generate_skill_report (parsed_data : Resume) (analysis : Analysis)
    (today now : Str) : Str × Str :=
  let name := parsed_data.name
  let skills := parsed_data.skills
  let header :=
    [L "# 候选人技能评估报告 - " ++ name, [],
     L "## 基本信息", [],
     L "| 项目 | 内容 |", L "|------|------|",
     L "| 姓名 | " ++ name ++ L " |",
     L "| 期望岗位 | " ++ parsed_data.position ++ L " |",
     L "| 工作年限 | " ++ parsed_data.experience_years ++ L " |",
     L "| 毕业院校 | " ++
       (if parsed_data.education.isEmpty then L "未识别"
        else parsed_data.education) ++ L " |",
     [], L "## 技能概览", [], L "### 技术栈", []] ++
    (if ¬ skills.languages.isEmpty then
      [L "- **编程语言**: " ++ joinSep (L ", ") skills.languages] else []) ++
    (if ¬ skills.engines.isEmpty then
      [L "- **游戏引擎**: " ++ joinSep (L ", ") skills.engines] else []) ++
    (if ¬ skills.professional.isEmpty then
      [L "- **专业技能**: " ++ joinSep (L ", ") (skills.professional.take 10)]
     else []) ++
    (if ¬ skills.tools.isEmpty then
      [L "- **工具**: " ++ joinSep (L ", ") (skills.tools.take 8)] else []) ++
    [[], L "### 技能熟练度评估", []] ++
    ([L "编程语言", L "游戏引擎", L "专业技能", L "工具"].map
      (fun cat => reportCategoryLines cat analysis.skill_levels)).flatten ++
    [L "## 项目经历分析", []] ++
    ((parsed_data.projects.take 3).enum.map
      (fun ip => reportProjectLines (ip.1 + 1) ip.2)).flatten ++
    [L "## 优势亮点", []] ++
    (enumFrom1 analysis.advantages).map
      (fun ia => natStr ia.1 ++ L ". " ++ ia.2) ++
    [[], L "## 风险点/待验证", []] ++
    (enumFrom1 analysis.risks).map (fun ir => natStr ir.1 ++ L ". " ++ ir.2) ++
    [[], L "## 综合评价", [],
     L "- **推荐等级**: " ++ analysis.recommendation_level ++ L "级",
     L "- **总体评价**: " ++ analysis.overall_assessment,
     L "- **适合岗位**: " ++ joinSep (L ", ") analysis.suitable_positions,
     [], L "---", [],
     L "*报告由简历自动分析系统生成*",
     L "*生成时间：" ++ now ++ L "*"]
  (L "技能评估报告_" ++ name ++ L "_" ++ today ++ L ".md",
   joinSep (L "\n") header)

end AR

/-! ## Derived characterizations and the claim theorems -/

set_option maxRecDepth 100000
set_option maxHeartbeats 1000000

namespace AR

open PyStr PyRe

/-- The tech-stack-breadth sub-score as a plain bucket function. -/
def techScore (n : Nat) : Nat :=
  if 5 ≤ n then 20 else if 3 ≤ n then 15 else if 1 ≤ n then 8 else 0

/-- The core-system sub-score. -/
def sysScore (n : Nat) : Nat :=
  if 4 ≤ n then 25 else if 2 ≤ n then 18 else if 1 ≤ n then 10 else 0

/-- The team-size sub-score: bucketed on the first digit run of the field,
zero when the field has no digits (in particular when it is empty). -/
def teamScore (team : Str) : Nat :=
  match findFirstDigitRun team with
  | some digits =>
    if 10 ≤ digitsToNat digits then 20
    else if 5 ≤ digitsToNat digits then 15
    else if 3 ≤ digitsToNat digits then 10
    else 5
  | none => 0

/-- The scale sub-score: the team-size bucket, floored at 15 when the
development duration mentions a year or a month count. -/
def scaleScore (team dev : Str) : Nat :=
  if ¬ dev.isEmpty ∧ (isInfixB (L "年") dev || hasMonthPattern dev) then
    (if teamScore team < 15 then 15 else teamScore team)
  else teamScore team

/-- The technical-highlight sub-score. -/
def hlScore (n : Nat) : Nat :=
  if 4 ≤ n then 20 else if 2 ≤ n then 15 else if 1 ≤ n then 8 else 0

/-- The description-length sub-score. -/
def descLenScore (n : Nat) : Nat :=
  if 400 ≤ n then 15 else if 200 ≤ n then 10 else if 100 ≤ n then 5 else 2

/-- The uncapped complexity score: the sum of the five sub-scores. -/
def rawComplexityScore (p : Project) : Nat :=
  techScore p.tech_stack.length + sysScore p.core_systems.length +
  scaleScore p.team_size p.development_time +
  hlScore p.tech_highlights.length + descLenScore p.description.length

/-- The level thresholds. -/
def levelOfScore (s : Nat) : Str :=
  if 75 ≤ s then L "高" else if 50 ≤ s then L "中等"
  else if 30 ≤ s then L "一般" else L "入门"

theorem techBucket_fst (n : Nat) : (techBucket n).1 = techScore n := by
  unfold techBucket techScore; split_ifs <;> rfl

theorem systemBucket_fst (n : Nat) : (systemBucket n).1 = sysScore n := by
  unfold systemBucket sysScore; split_ifs <;> rfl

theorem teamBucket_fst (team : Str) : (teamBucket team).1 = teamScore team := by
  unfold teamBucket teamScore
  by_cases h : team.isEmpty
  · have : team = [] := by
      cases team with
      | nil => rfl
      | cons a t => simp [List.isEmpty] at h
    subst this
    simp [findFirstDigitRun]
  · simp only [h, Bool.false_eq_true, not_false_eq_true, if_true]
    cases hf : findFirstDigitRun team
    · rfl
    · simp only []
      split_ifs <;> rfl

theorem applyDurationFloor_fst (s : Nat) (r : List Str) (d : Str) :
    (applyDurationFloor s r d).1 =
      if ¬ d.isEmpty ∧ (isInfixB (L "年") d || hasMonthPattern d) then
        (if s < 15 then 15 else s)
      else s := by
  unfold applyDurationFloor; split_ifs <;> rfl

theorem highlightBucket_fst (n : Nat) : (highlightBucket n).1 = hlScore n := by
  unfold highlightBucket hlScore; split_ifs <;> rfl

theorem descBucket_fst (n : Nat) : (descBucket n).1 = descLenScore n := by
  unfold descBucket descLenScore; split_ifs <;> rfl

theorem complexity_score_eq (p : Project) :
    (analyze_project_complexity p).score = min (rawComplexityScore p) 100 := by
  unfold analyze_project_complexity
  rcases h1 : techBucket p.tech_stack.length with ⟨s1, r1⟩
  rcases h2 : systemBucket p.core_systems.length with ⟨s2, r2⟩
  rcases h3 : teamBucket p.team_size with ⟨s0, r3⟩
  rcases h4 : applyDurationFloor s0 (r1 ++ r2 ++ r3) p.development_time
    with ⟨sc, rs⟩
  rcases h5 : highlightBucket p.tech_highlights.length with ⟨s4, r4⟩
  rcases h6 : descBucket p.description.length with ⟨s5, r5⟩
  simp only [h1, h2, h3, h4, h5, h6]
  have e1 : s1 = techScore p.tech_stack.length := by
    have := techBucket_fst p.tech_stack.length; rw [h1] at this; exact this
  have e2 : s2 = sysScore p.core_systems.length := by
    have := systemBucket_fst p.core_systems.length; rw [h2] at this; exact this
  have e3 : s0 = teamScore p.team_size := by
    have := teamBucket_fst p.team_size; rw [h3] at this; exact this
  have e4 : s4 = hlScore p.tech_highlights.length := by
    have := highlightBucket_fst p.tech_highlights.length; rw [h5] at this
    exact this
  have e5 : s5 = descLenScore p.description.length := by
    have := descBucket_fst p.description.length; rw [h6] at this; exact this
  have esc : sc = scaleScore p.team_size p.development_time := by
    have := applyDurationFloor_fst s0 (r1 ++ r2 ++ r3) p.development_time
    rw [h4] at this
    rw [scaleScore, ← e3]
    exact this
  rw [rawComplexityScore, ← e1, ← e2, ← esc, ← e4, ← e5]

theorem complexity_level_eq (p : Project) :
    (analyze_project_complexity p).level = levelOfScore (rawComplexityScore p) := by
  unfold analyze_project_complexity
  rcases h1 : techBucket p.tech_stack.length with ⟨s1, r1⟩
  rcases h2 : systemBucket p.core_systems.length with ⟨s2, r2⟩
  rcases h3 : teamBucket p.team_size with ⟨s0, r3⟩
  rcases h4 : applyDurationFloor s0 (r1 ++ r2 ++ r3) p.development_time
    with ⟨sc, rs⟩
  rcases h5 : highlightBucket p.tech_highlights.length with ⟨s4, r4⟩
  rcases h6 : descBucket p.description.length with ⟨s5, r5⟩
  simp only [h1, h2, h3, h4, h5, h6]
  have e1 : s1 = techScore p.tech_stack.length := by
    have := techBucket_fst p.tech_stack.length; rw [h1] at this; exact this
  have e2 : s2 = sysScore p.core_systems.length := by
    have := systemBucket_fst p.core_systems.length; rw [h2] at this; exact this
  have e3 : s0 = teamScore p.team_size := by
    have := teamBucket_fst p.team_size; rw [h3] at this; exact this
  have e4 : s4 = hlScore p.tech_highlights.length := by
    have := highlightBucket_fst p.tech_highlights.length; rw [h5] at this
    exact this
  have e5 : s5 = descLenScore p.description.length := by
    have := descBucket_fst p.description.length; rw [h6] at this; exact this
  have esc : sc = scaleScore p.team_size p.development_time := by
    have := applyDurationFloor_fst s0 (r1 ++ r2 ++ r3) p.development_time
    rw [h4] at this
    rw [scaleScore, ← e3]
    exact this
  rw [levelOfScore, rawComplexityScore, ← e1, ← e2, ← esc, ← e4, ← e5]

/-- The scale sub-score as claim C6 states it: the `else` bucket of the team
size is 5 — also when no team-size number is present at all. -/
def claimScaleScore (team dev : Str) : Nat :=
  let base :=
    match findFirstDigitRun team with
    | some digits =>
      if 10 ≤ digitsToNat digits then 20
      else if 5 ≤ digitsToNat digits then 15
      else if 3 ≤ digitsToNat digits then 10
      else 5
    | none => 5
  if ¬ dev.isEmpty ∧ (isInfixB (L "年") dev || hasMonthPattern dev) then
    (if base < 15 then 15 else base)
  else base

/-- The total complexity score as claim C6 states it. -/
def claimComplexityScore (p : Project) : Nat :=
  min (techScore p.tech_stack.length + sysScore p.core_systems.length +
    claimScaleScore p.team_size p.development_time +
    hlScore p.tech_highlights.length + descLenScore p.description.length) 100

/-- A project record with every field empty, the degenerate record of a
pattern-free block. -/
def mtProject : Project :=
  { name := [], type := [], role := [], description := [], tech_stack := []
    project_scale := [], development_time := [], team_size := []
    core_systems := [], tech_highlights := [], personal_contribution := []
    inferred_core_systems := false, complexity_score := 0
    complexity_level := [], complexity_reason := [] }

end AR

namespace AR

open PyStr

theorem techScore_mono {m n : Nat} (h : m ≤ n) : techScore m ≤ techScore n := by
  unfold techScore; split_ifs <;> omega

end AR

/-- C6 counterexample: on the all-empty project record the code's complexity
score is 2 (scale contributes 0, description contributes 2), while the
formula of the claim — scale sub-score "5 otherwise", including when no
team-size number is present — yields 7; the claimed formula does not hold on
this input. -/
theorem complexity_scale_counterexample :
    (AR.analyze_project_complexity AR.mtProject).score = 2 ∧
    AR.claimComplexityScore AR.mtProject = 7 ∧
    (AR.analyze_project_complexity AR.mtProject).score ≠
      AR.claimComplexityScore AR.mtProject := by
  decide

/-- C6 (amended): for every project record, the complexity score is the sum
of the five bucketed sub-scores capped at 100, where the scale sub-score is
the team-size bucket (`≥10 → 20`, `≥5 → 15`, `≥3 → 10`, `5` for a smaller
number, and `0` when the team-size field contains no number at all),
floored at 15 when the development duration mentions a year or a month
count; the level is `高`(high) at `≥75`, `中等`(medium) at `≥50`,
`一般`(modest) at `≥30` and `入门`(entry) otherwise, computed from the
uncapped sum (the cap never binds, as the maximum is 100). -/
theorem complexity_formula (p : AR.Project) :
    (AR.analyze_project_complexity p).score = min (AR.rawComplexityScore p) 100 ∧
    (AR.analyze_project_complexity p).level =
      AR.levelOfScore (AR.rawComplexityScore p) :=
  ⟨AR.complexity_score_eq p, AR.complexity_level_eq p⟩

/-- C7: appending one technology not already present to a project's tech
stack, all other fields fixed, never decreases the complexity score. -/
theorem complexity_tech_monotone (p : AR.Project) (t : Str)
    (_h : t ∉ p.tech_stack) :
    (AR.analyze_project_complexity p).score ≤
      (AR.analyze_project_complexity
        { p with tech_stack := p.tech_stack ++ [t] }).score := by
  rw [AR.complexity_score_eq, AR.complexity_score_eq]
  apply min_le_min _ (le_refl 100)
  unfold AR.rawComplexityScore
  simp only [List.length_append, List.length_cons, List.length_nil,
    Nat.zero_add]
  have hmono := AR.techScore_mono
    (m := p.tech_stack.length) (n := p.tech_stack.length + 1) (by omega)
  omega

/-- Witness for C7 at the empty project record and the technology `Unity`. -/
theorem complexity_tech_monotone_witness :
    (AR.L "Unity") ∉ AR.mtProject.tech_stack ∧
    (AR.analyze_project_complexity AR.mtProject).score ≤
      (AR.analyze_project_complexity
        { AR.mtProject with
            tech_stack := AR.mtProject.tech_stack ++ [AR.L "Unity"] }).score :=
  ⟨by decide, complexity_tech_monotone AR.mtProject (AR.L "Unity") (by decide)⟩

/-! ### Deduplication: characterization and idempotence -/

namespace CA

open PyStr

/-- The duplicate test as it behaves in the code, with the ratio comparison
expressed over naturals: substring in either direction, or — both normalized
strings longer than 10 characters — shared distinct characters exceeding
`0.8` of the longer string length. -/
def simSpec (a b : Str) : Bool :=
  isInfixB a b || isInfixB b a ||
  (10 < a.length && 10 < b.length &&
    4 * max a.length b.length < 5 * charSetInterCard a b)

/-- Greedy first-seen selection with respect to `simSpec` on normalized
forms, phrased over the list of kept originals. -/
def mergeSpecGo (kept : List Str) : List Str → List Str
  | [] => []
  | c :: rest =>
    if kept.any (fun k => simSpec (normalizeContent c) (normalizeContent k))
    then mergeSpecGo kept rest
    else c :: mergeSpecGo (c :: kept) rest

/-- The claimed-shape deduplication: keep a string iff it is not a duplicate
of an earlier kept one. -/
def mergeSpec (contents : List Str) : List Str := mergeSpecGo [] contents

theorem similarPair_eq_simSpec (a b : Str) : similarPair a b = simSpec a b := by
  unfold similarPair simSpec
  by_cases h3 : 10 < a.length
  · by_cases h4 : 10 < b.length
    · have hm : (0 : ℚ) < (a.length : ℚ) ⊔ (b.length : ℚ) := by
        have ha : (0 : ℚ) < (a.length : ℚ) := by
          exact_mod_cast Nat.lt_of_lt_of_le (by norm_num) (le_of_lt h3)
        exact lt_of_lt_of_le ha (le_max_left _ _)
      have key : ((charSetInterCard a b : ℚ) /
            ((a.length : ℚ) ⊔ (b.length : ℚ)) > 8 / 10) ↔
          (4 * max a.length b.length < 5 * charSetInterCard a b) := by
        rw [gt_iff_lt, div_lt_div_iff₀ (by norm_num) hm, ← Nat.cast_max]
        constructor
        · intro h
          have hn : 8 * max a.length b.length < charSetInterCard a b * 10 := by
            exact_mod_cast h
          omega
        · intro h
          have hn : 8 * max a.length b.length < charSetInterCard a b * 10 := by
            omega
          exact_mod_cast hn
      simp [h3, h4, key]
    · simp [h3, h4]
  · simp [h3]

theorem mergeGo_eq_spec (xs : List Str) :
    ∀ kept : List Str, mergeGo (kept.map normalizeContent) xs = mergeSpecGo kept xs := by
  induction xs with
  | nil => intro kept; rfl
  | cons c rest ih =>
    intro kept
    have hc : ((kept.map normalizeContent).any
          (fun si => similarPair (normalizeContent c) si)) =
        (kept.any (fun k => simSpec (normalizeContent c) (normalizeContent k))) := by
      rw [List.any_map]
      have hfun : ((fun si => similarPair (normalizeContent c) si) ∘
            normalizeContent) =
          (fun k => simSpec (normalizeContent c) (normalizeContent k)) := by
        funext k
        exact similarPair_eq_simSpec (normalizeContent c) (normalizeContent k)
      rw [hfun]
    by_cases h : kept.any (fun k => simSpec (normalizeContent c) (normalizeContent k)) = true
    · have h1 : mergeGo (kept.map normalizeContent) (c :: rest) =
          mergeGo (kept.map normalizeContent) rest := by
        simp only [mergeGo]
        rw [hc]
        simp [h]
      have h2 : mergeSpecGo kept (c :: rest) = mergeSpecGo kept rest := by
        simp only [mergeSpecGo]
        simp [h]
      rw [h1, h2]
      exact ih kept
    · have h1 : mergeGo (kept.map normalizeContent) (c :: rest) =
          c :: mergeGo (normalizeContent c :: kept.map normalizeContent) rest := by
        simp only [mergeGo]
        rw [hc]
        simp [h]
      have h2 : mergeSpecGo kept (c :: rest) = c :: mergeSpecGo (c :: kept) rest := by
        simp only [mergeSpecGo]
        simp [h]
      rw [h1, h2]
      have := ih (c :: kept)
      simp only [List.map_cons] at this
      rw [this]

theorem mergeGo_idem (xs : List Str) :
    ∀ seen : List Str, mergeGo seen (mergeGo seen xs) = mergeGo seen xs := by
  induction xs with
  | nil => intro seen; rfl
  | cons c rest ih =>
    intro seen
    by_cases h : (seen.any fun si => similarPair (normalizeContent c) si) = true
    · have hstep : mergeGo seen (c :: rest) = mergeGo seen rest := by
        simp only [mergeGo]; simp [h]
      rw [hstep]
      exact ih seen
    · have hstep : mergeGo seen (c :: rest) =
          c :: mergeGo (normalizeContent c :: seen) rest := by
        simp only [mergeGo]; simp [h]
      rw [hstep]
      have houter : mergeGo seen
            (c :: mergeGo (normalizeContent c :: seen) rest) =
          c :: mergeGo (normalizeContent c :: seen)
            (mergeGo (normalizeContent c :: seen) rest) := by
        simp only [mergeGo]; simp [h]
      rw [houter, ih (normalizeContent c :: seen)]

end CA

namespace AR

open PyStr

theorem dedupByStripWs_take_fixed (xs : List Str) :
    ∀ (kept : List Str) (n : Nat),
      dedupByStripWs kept ((dedupByStripWs kept xs).take n) =
        (dedupByStripWs kept xs).take n := by
  induction xs with
  | nil => intro kept n; simp [dedupByStripWs]
  | cons h t ih =>
    intro kept n
    by_cases hc : (kept.any fun e => stripAllWs e = stripAllWs h) = true
    · have hstep : dedupByStripWs kept (h :: t) = dedupByStripWs kept t := by
        simp only [dedupByStripWs]; simp [hc]
      rw [hstep]
      exact ih kept n
    · have hstep : dedupByStripWs kept (h :: t) =
          h :: dedupByStripWs (h :: kept) t := by
        simp only [dedupByStripWs]; simp [hc]
      rw [hstep]
      cases n with
      | zero => simp [dedupByStripWs]
      | succ m =>
        simp only [List.take_succ_cons]
        have hstep2 : dedupByStripWs kept
              (h :: (dedupByStripWs (h :: kept) t).take m) =
            h :: dedupByStripWs (h :: kept)
              ((dedupByStripWs (h :: kept) t).take m) := by
          simp only [dedupByStripWs]; simp [hc]
        rw [hstep2, ih (h :: kept) m]

end AR

/-- C4 counterexample.  First conjunct: in the resume analyzer's
highlight/contribution deduplication, `abc` is a substring of `abcdef` —
a duplicate per the claim — yet both strings are kept, because that loop
only removes exact whitespace-stripped equals.  Second conjunct: in
`merge_similar_contents`, the pair below is kept although the claimed
character-set ratio `|charsA ∩ charsB| / max(|charsA|, |charsB|)` is
`11/11 > 0.8` (shown as `4·max < 5·11` over the distinct-character counts):
the code divides by the longer string *length* (`11/14 ≤ 0.8`). -/
theorem dedup_claim_counterexample :
    (AR.dedupByStripWs [] [AR.L "abcdef", AR.L "abc"] =
        [AR.L "abcdef", AR.L "abc"] ∧
      PyStr.isInfixB (AR.L "abc") (AR.L "abcdef") = true) ∧
    (CA.merge_similar_contents [AR.L "0123456789xxxx", AR.L "x0123456789"] =
        [AR.L "0123456789xxxx", AR.L "x0123456789"] ∧
      4 * max (AR.L "0123456789xxxx").eraseDups.length
          (AR.L "x0123456789").eraseDups.length <
        5 * CA.charSetInterCard (AR.L "0123456789xxxx") (AR.L "x0123456789")) := by
  refine ⟨⟨by decide, by decide⟩, ?_, by decide⟩
  have hmerge : CA.merge_similar_contents
        [AR.L "0123456789xxxx", AR.L "x0123456789"] =
      CA.mergeSpecGo [] [AR.L "0123456789xxxx", AR.L "x0123456789"] := by
    show CA.mergeGo [] _ = _
    exact CA.mergeGo_eq_spec _ []
  rw [hmerge]
  decide

/-- C4 (amended): in the git-report `merge_similar_contents`, two normalized
strings are duplicates iff one is a substring of the other, or both exceed
10 characters and their shared distinct characters exceed 0.8 of the longer
string *length* (not of the larger character-set size); among duplicates the
first-seen string is kept.  The resume analyzer's highlight/contribution
deduplication instead treats two candidates as duplicates exactly when
their whitespace-stripped forms are equal (again keeping the first). -/
theorem dedup_characterization :
    (∀ contents : List Str,
      CA.merge_similar_contents contents = CA.mergeSpec contents) ∧
    (∀ a b : Str,
      AR.dedupByStripWs [] [a, b] =
        if AR.stripAllWs a = AR.stripAllWs b then [a] else [a, b]) := by
  constructor
  · intro contents
    cases contents with
    | nil => rfl
    | cons c rest =>
      show CA.mergeGo [] (c :: rest) = CA.mergeSpecGo [] (c :: rest)
      exact CA.mergeGo_eq_spec _ []
  · intro a b
    have h1 : AR.dedupByStripWs [] [a, b] = a :: AR.dedupByStripWs [a] [b] := by
      simp only [AR.dedupByStripWs]; simp
    rw [h1]
    by_cases h : AR.stripAllWs a = AR.stripAllWs b
    · have h2 : AR.dedupByStripWs [a] [b] = AR.dedupByStripWs [a] [] := by
        simp only [AR.dedupByStripWs]; simp [h]
      rw [h2]
      simp [AR.dedupByStripWs, h]
    · have h2 : AR.dedupByStripWs [a] [b] = b :: AR.dedupByStripWs [b, a] [] := by
        simp only [AR.dedupByStripWs]; simp [h]
      rw [h2]
      simp [AR.dedupByStripWs, h]

/-- C5: the highlight/contribution deduplications are idempotent — the
git-report merge, the highlight dedup-and-cap, and the contribution
dedup-and-cap each fix their own output. -/
theorem dedup_idempotent :
    (∀ x : List Str, CA.merge_similar_contents (CA.merge_similar_contents x) =
      CA.merge_similar_contents x) ∧
    (∀ x : List Str, AR.dedupHighlightsOp (AR.dedupHighlightsOp x) =
      AR.dedupHighlightsOp x) ∧
    (∀ x : List Str, AR.dedupContributionsOp (AR.dedupContributionsOp x) =
      AR.dedupContributionsOp x) := by
  refine ⟨?_, ?_, ?_⟩
  · intro x
    cases x with
    | nil => rfl
    | cons c rest =>
      have h1 : CA.merge_similar_contents (c :: rest) =
          CA.mergeGo [] (c :: rest) := rfl
      have hne : CA.mergeGo [] (c :: rest) ≠ [] := by
        simp only [CA.mergeGo]
        simp
      rw [h1]
      cases hm : CA.mergeGo [] (c :: rest) with
      | nil => exact absurd hm hne
      | cons d ds =>
        have h2 : CA.merge_similar_contents (d :: ds) =
            CA.mergeGo [] (d :: ds) := rfl
        rw [h2, ← hm, CA.mergeGo_idem]
  · intro x
    unfold AR.dedupHighlightsOp
    rw [AR.dedupByStripWs_take_fixed, List.take_take, Nat.min_self]
  · intro x
    unfold AR.dedupContributionsOp
    rw [AR.dedupByStripWs_take_fixed, List.take_take, Nat.min_self]

/-! ### The garble flag and the title validator -/

namespace AR

open PyStr PyRe

/-- The abnormal-character-ratio test of the garble detector, as an exact
rational comparison (`1 - normal/total > 0.30`). -/
def abnormalRatioGt (s : Str) : Bool :=
  decide ((1 : ℚ) - (normalCount s : ℚ) / (s.length : ℚ) > 3 / 10)

/-- Whether the sequential garbage-pattern scan over the cleaned text finds
any of the four mojibake patterns. -/
def garbageDetected (s : Str) : Bool :=
  (garbageScan (cleanStep2 s, false) garbagePatterns).2

theorem garbageScan_snd (ps : List RE) :
    ∀ (c : Str) (b : Bool),
      (garbageScan (c, b) ps).2 = (b || (garbageScan (c, false) ps).2) := by
  induction ps with
  | nil => intro c b; simp [garbageScan]
  | cons p ps ih =>
    intro c b
    by_cases h : (search p c).isSome = true
    · have h1 : garbageScan (c, b) (p :: ps) =
          garbageScan (subAll p c [], true) ps := by
        simp only [garbageScan]; simp [h]
      have h2 : garbageScan (c, false) (p :: ps) =
          garbageScan (subAll p c [], true) ps := by
        simp only [garbageScan]; simp [h]
      rw [h1, h2, ih, ih]
      simp
    · have h1 : garbageScan (c, b) (p :: ps) = garbageScan (c, b) ps := by
        simp only [garbageScan]; simp [h]
      have h2 : garbageScan (c, false) (p :: ps) = garbageScan (c, false) ps := by
        simp only [garbageScan]; simp [h]
      rw [h1, h2, ih]

/-- The returned garble flag, in closed form: the text is non-empty, and
either the abnormal ratio exceeds 0.30 or a garbage pattern is found. -/
theorem clean_snd_eq (s : Str) :
    (clean_extracted_text s).map Prod.snd =
      some (!s.isEmpty && (abnormalRatioGt s || garbageDetected s)) := by
  unfold clean_extracted_text
  by_cases h : s.isEmpty
  · simp [h]
  · have hlen : ¬ s.length = 0 := by
      cases s with
      | nil => simp [List.isEmpty] at h
      | cons a t => simp
    have hq : ((s.length : ℚ)) ≠ 0 := Nat.cast_ne_zero.mpr hlen
    simp only [h, Bool.false_eq_true, if_false, hlen, if_false, pyDivQ, hq,
      Option.bind_eq_bind, Option.some_bind, Option.map_some, Bool.not_false,
      Bool.true_and]
    rw [garbageScan_snd]
    rfl

/-- The boundary input of the C3 counterexample: seven normal letters and
three control characters — the abnormal ratio is exactly 30%. -/
def garbleBoundaryInput : Str :=
  L "aaaaaaa" ++ [Char.ofNat 1, Char.ofNat 1, Char.ofNat 1]

end AR

/-- C3 counterexample: for a ten-character string with seven normal
characters (abnormal ratio exactly 30%, which does not exceed 0.30), the
garbled flag is nevertheless `true`, because the control characters match a
garbage pattern during the cleanup pass.  This refutes both the claimed
equivalence (flag iff ratio strictly above 0.30) and its instance that any
non-empty string at exactly 30% is classified as not garbled. -/
theorem garble_flag_counterexample :
    (AR.clean_extracted_text AR.garbleBoundaryInput).map Prod.snd = some true ∧
    AR.normalCount AR.garbleBoundaryInput = 7 ∧
    AR.garbleBoundaryInput.length = 10 ∧
    AR.abnormalRatioGt AR.garbleBoundaryInput = false := by
  have hratio : AR.abnormalRatioGt AR.garbleBoundaryInput = false := by
    unfold AR.abnormalRatioGt
    rw [show AR.normalCount AR.garbleBoundaryInput = 7 from by decide,
      show AR.garbleBoundaryInput.length = 10 from by decide]
    apply decide_eq_false
    norm_num
  refine ⟨?_, by decide, by decide, hratio⟩
  rw [AR.clean_snd_eq, hratio]
  rw [show AR.garbageDetected AR.garbleBoundaryInput = true from by decide]
  rfl

/-- C3 (amended): the garble detector flags a fragment exactly when the
fragment is non-empty and either its abnormal-character ratio strictly
exceeds 0.30 (an exact rational comparison here; the source evaluates it in
binary floating point, where ratios equal to 30% also land above the
rounded literal) or one of the four fixed mojibake patterns is found —
and removed — during the cleanup pass. -/
theorem clean_flag_characterization (s : Str) :
    (AR.clean_extracted_text s).map Prod.snd =
      some (!s.isEmpty && (AR.abnormalRatioGt s || AR.garbageDetected s)) :=
  AR.clean_snd_eq s

/-! ### The candidate-title validator -/

namespace AR

open PyStr

/-- The acceptance condition of `_is_valid_project_name` as the code
implements it: length within `[3, 30]`, no description-verb keyword, none
of the three sentence separators at all, and not purely
numeric/whitespace/punctuation. -/
def validTitleSpec (name : Str) : Bool :=
  (3 ≤ name.length && name.length ≤ 30) &&
  descKeywords.all (fun k => !isInfixB k name) &&
  (!isInfixB (L "，") name && !isInfixB (L "。") name && !isInfixB (L "；") name) &&
  !matchesPureNumeric name

theorem isInfixB_single (c : Char) (s : Str) :
    isInfixB [c] s = s.any (fun x => x = c) := by
  induction s with
  | nil => rfl
  | cons a t ih =>
    unfold isInfixB
    rw [ih]
    rcases Decidable.em (c = a) with h | h
    · subst h; simp [List.isPrefixOf]
    · have : ¬ (a = c) := fun hh => h hh.symm
      simp [List.isPrefixOf, h, this]

theorem countChar_pos_iff (c : Char) (s : Str) :
    0 < countChar c s ↔ isInfixB [c] s = true := by
  rw [isInfixB_single, countChar, List.countP_pos_iff, List.any_eq_true]

end AR

/-- C9 counterexample: the six-character title `冒险岛，补丁` has valid length,
contains no description-verb keyword, contains exactly one
sentence-separator punctuation mark, and is not purely numeric — so the
claim accepts it — yet the validator rejects it, because any occurrence of
`，`/`。`/`；` is rejected outright. -/
theorem title_single_separator_counterexample :
    AR._is_valid_project_name (AR.L "冒险岛，补丁") = false ∧
    (AR.L "冒险岛，补丁").length = 6 ∧
    AR.descKeywords.all (fun k => !PyStr.isInfixB k (AR.L "冒险岛，补丁")) = true ∧
    PyStr.countChar '，' (AR.L "冒险岛，补丁") +
      PyStr.countChar '。' (AR.L "冒险岛，补丁") +
      PyStr.countChar '；' (AR.L "冒险岛，补丁") = 1 ∧
    AR.matchesPureNumeric (AR.L "冒险岛，补丁") = false := by
  decide

/-- C9 (amended): the validator accepts a title exactly when its length is
within `[3, 30]`, it contains no description-verb keyword, it contains *no*
sentence-separator punctuation mark at all (`，`, `。`, `；` — one occurrence
already rejects, so the more-than-one test is subsumed), and it is not
purely numeric/whitespace/punctuation. -/
theorem title_validator_characterization (name : Str) :
    AR._is_valid_project_name name = AR.validTitleSpec name := by
  unfold AR._is_valid_project_name AR.validTitleSpec
  by_cases hlen : (name.isEmpty || name.length < 3 || 30 < name.length) = true
  · simp only [hlen, if_true]
    rcases Bool.or_eq_true_iff.mp hlen with h | h
    · rcases Bool.or_eq_true_iff.mp h with h1 | h1
      · have : name = [] := by
          cases name with
          | nil => rfl
          | cons a t => simp [List.isEmpty] at h1
        subst this
        rfl
      · have : name.length < 3 := by simpa using h1
        have h3 : (decide (3 ≤ name.length)) = false := by
          simp; omega
        simp [h3]
    · have : 30 < name.length := by simpa using h
      have h30 : (decide (name.length ≤ 30)) = false := by
        simp; omega
      simp [h30]
  · have hlen' : 3 ≤ name.length ∧ name.length ≤ 30 := by
      simp only [Bool.or_eq_true_iff, not_or] at hlen
      obtain ⟨⟨_, h2⟩, h3⟩ := hlen
      constructor
      · simpa using h2
      · simpa using h3
    simp only [hlen, if_false]
    have hlenb : (decide (3 ≤ name.length) && decide (name.length ≤ 30)) = true := by
      simp [hlen'.1, hlen'.2]
    by_cases hkw : (AR.descKeywords.any fun k => PyStr.isInfixB k name) = true
    · simp only [hkw, if_true]
      have : (AR.descKeywords.all fun k => !PyStr.isInfixB k name) = false := by
        rw [List.all_eq_not_any_not]
        simp only [Bool.not_not]
        simp [hkw]
      simp [this]
    · have hall : (AR.descKeywords.all fun k => !PyStr.isInfixB k name) = true := by
        rw [List.all_eq_not_any_not]
        simp only [Bool.not_not]
        simp [hkw]
      simp only [hkw, if_false]
      by_cases hs1 : PyStr.isInfixB (AR.L "，") name = true
      · have hcnt : 0 < PyStr.countChar '，' name :=
          (AR.countChar_pos_iff '，' name).mpr hs1
        by_cases hc : (1 < PyStr.countChar '，' name + PyStr.countChar '。' name +
            PyStr.countChar '；' name)
        · simp only [hc, if_true, hs1]
          simp [hlenb, hall]
        · simp only [hc, if_false]
          simp only [hs1, Bool.true_or, if_true]
          simp [hlenb, hall, hs1]
      · by_cases hs2 : PyStr.isInfixB (AR.L "。") name = true
        · have hcnt : 0 < PyStr.countChar '。' name :=
            (AR.countChar_pos_iff '。' name).mpr hs2
          by_cases hc : (1 < PyStr.countChar '，' name + PyStr.countChar '。' name +
              PyStr.countChar '；' name)
          · simp only [hc, if_true]
            simp [hlenb, hall, hs2]
          · simp only [hc, if_false]
            simp only [hs2, Bool.or_true, Bool.true_or, if_true]
            simp [hlenb, hall, hs2]
        · by_cases hs3 : PyStr.isInfixB (AR.L "；") name = true
          · have hcnt : 0 < PyStr.countChar '；' name :=
              (AR.countChar_pos_iff '；' name).mpr hs3
            by_cases hc : (1 < PyStr.countChar '，' name + PyStr.countChar '。' name +
                PyStr.countChar '；' name)
            · simp only [hc, if_true]
              simp [hlenb, hall, hs3]
            · simp only [hc, if_false]
              simp only [hs3, Bool.or_true, if_true]
              simp [hlenb, hall, hs3]
          · have hc0 : PyStr.countChar '，' name = 0 := by
              by_contra hne
              exact hs1 ((AR.countChar_pos_iff '，' name).mp (by omega))
            have hc1 : PyStr.countChar '。' name = 0 := by
              by_contra hne
              exact hs2 ((AR.countChar_pos_iff '。' name).mp (by omega))
            have hc2 : PyStr.countChar '；' name = 0 := by
              by_contra hne
              exact hs3 ((AR.countChar_pos_iff '；' name).mp (by omega))
            have hccond : ¬ (1 < PyStr.countChar '，' name +
                PyStr.countChar '。' name + PyStr.countChar '；' name) := by
              omega
            simp only [hccond, if_false, hs1, hs2, hs3, Bool.false_or, if_false]
            by_cases hnum : AR.matchesPureNumeric name = true
            · simp [hnum, hlenb, hall, hs1, hs2, hs3]
            · simp [hnum, hlenb, hall, hs1, hs2, hs3]

/-! ### Skill-proficiency ladders -/

namespace AR

open PyStr

/-- The proficiency ladder of claim C8, as `analyze_skills` implements it:
`精通` (advanced) at ≥2 related projects, `熟练` (intermediate) at exactly
1, `了解` (beginner) otherwise. -/
def claimLadderLevel (n : Nat) : Str :=
  if 2 ≤ n then L "精通" else if n = 1 then L "熟练" else L "了解"

theorem skillLevelOf_fst (skill : Str) (projects : List Project) :
    (skillLevelOf skill projects).1 =
      claimLadderLevel (relatedProjects skill projects) := by
  simp only [skillLevelOf, claimLadderLevel]
  split_ifs <;> rfl

/-- The per-record invariant of the `skill_records` fold: every stored
record carries the ladder level of its own skill. -/
def LadderInv (projects : List Project) (e : Str × SkillRecord × Nat) : Prop :=
  e.2.1.level = claimLadderLevel (relatedProjects e.2.1.skill projects)

theorem addSkillRecord_inv (projects : List Project)
    (acc : List (Str × SkillRecord × Nat)) (skill category : Str)
    (hacc : ∀ e ∈ acc, LadderInv projects e) :
    ∀ e ∈ addSkillRecord projects acc skill category, LadderInv projects e := by
  unfold addSkillRecord
  by_cases hsk : skill.isEmpty = true
  · simp only [hsk, if_true]
    exact hacc
  · simp only [hsk, Bool.false_eq_true, if_false]
    rcases hsl : skillLevelOf skill projects with ⟨lv, ev⟩
    have hlv : lv = claimLadderLevel (relatedProjects skill projects) := by
      have := skillLevelOf_fst skill projects
      rw [hsl] at this
      exact this
    simp only [hsl]
    have hupd : ∀ v : SkillRecord × Nat, LadderInv projects
        (strip (lower skill), v) →
        ∀ e ∈ updateRecord acc (strip (lower skill)) v, LadderInv projects e := by
      intro v hv e he
      unfold updateRecord at he
      rcases List.mem_map.mp he with ⟨orig, horig, heq⟩
      by_cases hk : orig.1 = strip (lower skill)
      · rw [if_pos hk] at heq
        rw [← heq]
        exact hv
      · rw [if_neg hk] at heq
        rw [← heq]
        exact hacc orig horig
    cases hfind : acc.find? (fun e => e.1 = strip (lower skill)) with
    | none =>
      simp only [hfind]
      intro e he
      rcases List.mem_append.mp he with h | h
      · exact hacc e h
      · rcases List.mem_singleton.mp h with rfl
        exact hlv
    | some found =>
      simp only [hfind]
      split_ifs with h1 h2 h3
      · apply hupd
        exact hlv
      · exact hacc
      · apply hupd
        exact hlv
      · exact hacc

theorem skillRecords_inv (projects : List Project) :
    ∀ (l : List (Str × Str)) (acc : List (Str × SkillRecord × Nat)),
      (∀ e ∈ acc, LadderInv projects e) →
      ∀ e ∈ l.foldl (fun acc sc => addSkillRecord projects acc sc.1 sc.2) acc,
        LadderInv projects e := by
  intro l
  induction l with
  | nil => intro acc hacc; simp only [List.foldl_nil]; exact hacc
  | cons x xs ih =>
    intro acc hacc
    simp only [List.foldl_cons]
    exact ih _ (addSkillRecord_inv projects acc x.1 x.2 hacc)

theorem analyze_skills_ladder (pd : Resume) (a : Analysis)
    (h : analyze_skills pd = some a) :
    ∀ r ∈ a.skill_levels,
      r.level = claimLadderLevel (relatedProjects r.skill pd.projects) := by
  have hsome : ∃ r2, descRisk pd.projects = some r2 := by
    unfold descRisk
    by_cases hp : pd.projects.isEmpty = true
    · simp [hp]
    · have hlen : ¬ pd.projects.length = 0 := by
        cases hl : pd.projects with
        | nil => rw [hl] at hp; simp [List.isEmpty] at hp
        | cons q qs => simp
      have hq : ((pd.projects.length : ℚ)) ≠ 0 := Nat.cast_ne_zero.mpr hlen
      simp [hp, pyDivQ, hq]
  obtain ⟨r2, hr2⟩ := hsome
  simp only [analyze_skills, hr2, Option.bind_eq_bind, Option.some_bind] at h
  intro r hr
  have hsl : a.skill_levels =
      ((allSkills pd.skills).foldl
        (fun acc sc => addSkillRecord pd.projects acc sc.1 sc.2) []).map
        (fun e => e.2.1) := by
    split at h <;>
      (rename_i heq; exact (congrArg Analysis.skill_levels
        (Option.some.inj h)).symm)
  rw [hsl] at hr
  rcases List.mem_map.mp hr with ⟨e, he, heq⟩
  have := skillRecords_inv pd.projects (allSkills pd.skills) [] (by simp) e he
  rw [← heq]
  exact this

end AR

/-- C8 counterexample: `QuestionGenerator._determine_proficiency`, the
proficiency used by the question list, maps a skill with zero associated
projects (and no explicit annotation) to 熟练 (INTERMEDIATE), not to the
claimed 了解 (beginner); and a skill associated with exactly two projects
also to INTERMEDIATE, not the claimed advanced. -/
theorem proficiency_counterexample :
    QG._determine_proficiency none 0 = QG.SkillProficiency.INTERMEDIATE ∧
    QG._determine_proficiency none 2 = QG.SkillProficiency.INTERMEDIATE ∧
    QG.SkillProficiency.INTERMEDIATE ≠ QG.SkillProficiency.BEGINNER ∧
    QG.SkillProficiency.INTERMEDIATE ≠ QG.SkillProficiency.ADVANCED := by
  decide

/-- C8 (amended): in `analyze_skills` every produced skill record carries
the claimed ladder — 精通 (advanced) iff the skill token occurs in the
serialized representation of at least 2 projects, 熟练 (intermediate) at
exactly 1, 了解 (beginner) otherwise.  In
`QuestionGenerator._determine_proficiency` (without an explicit
annotation), the thresholds instead are: ADVANCED at ≥3 counted projects
and INTERMEDIATE otherwise — including at zero. -/
theorem proficiency_characterization :
    (∀ (pd : AR.Resume) (a : AR.Analysis), AR.analyze_skills pd = some a →
      ∀ r ∈ a.skill_levels,
        r.level = AR.claimLadderLevel (AR.relatedProjects r.skill pd.projects)) ∧
    (∀ count : Nat, QG._determine_proficiency none count =
      if 3 ≤ count then QG.SkillProficiency.ADVANCED
      else QG.SkillProficiency.INTERMEDIATE) := by
  constructor
  · exact AR.analyze_skills_ladder
  · intro count
    unfold QG._determine_proficiency QG.proficiencyByCount
    split_ifs <;> rfl

/-- The minimal record used to witness the amended C8: a single detected
language and no projects. -/
def c8pd : AR.Resume :=
  { name := AR.L "甲", position := AR.L "乙", experience_years := AR.L "丙"
    education := [], skills := ⟨[AR.L "C#"], [], [], []⟩, projects := []
    work_experience := [] }

/-- The analysis `analyze_skills` produces on `c8pd`. -/
def c8an : AR.Analysis :=
  { skill_levels := [⟨AR.L "C#", AR.L "编程语言", AR.L "了解", AR.L "简历提及"⟩]
    advantages := [AR.L "基础技能符合岗位要求"]
    risks := [AR.L "未见架构/设计模式相关经验，需验证代码组织能力"]
    recommendation_level := AR.L "D"
    overall_assessment := AR.L "项目经验不足，建议了解学习能力和潜力"
    suitable_positions := [AR.L "游戏开发工程师"] }

/-- Witness for C8 at `c8pd`: itsC# record carries the ladder level, and
the question-generator ladder at five projects. -/
theorem proficiency_characterization_witness :
    AR.analyze_skills c8pd = some c8an ∧
    (⟨AR.L "C#", AR.L "编程语言", AR.L "了解", AR.L "简历提及"⟩ : AR.SkillRecord)
      ∈ c8an.skill_levels ∧
    (⟨AR.L "C#", AR.L "编程语言", AR.L "了解", AR.L "简历提及"⟩ : AR.SkillRecord).level =
      AR.claimLadderLevel (AR.relatedProjects (AR.L "C#") c8pd.projects) ∧
    QG._determine_proficiency none 5 =
      (if 3 ≤ 5 then QG.SkillProficiency.ADVANCED
       else QG.SkillProficiency.INTERMEDIATE) := by
  refine ⟨by decide, by decide, ?_, proficiency_characterization.2 5⟩
  exact proficiency_characterization.1 c8pd c8an (by decide) _ (by decide)

/-! ### Totality of the parse and the hard caps -/

namespace AR

open PyStr PyRe

theorem pyGet_zero_isSome {α : Type} (l : List α) (h : l ≠ []) :
    (pyGet l 0).isSome := by
  cases l with
  | nil => exact absurd rfl h
  | cons a t => rfl

theorem clean_isSome (s : Str) : (clean_extracted_text s).isSome := by
  unfold clean_extracted_text
  by_cases h : s.isEmpty = true
  · simp [h]
  · have hlen : ¬ s.length = 0 := by
      cases s with
      | nil => simp [List.isEmpty] at h
      | cons a t => simp
    have hq : ((s.length : ℚ)) ≠ 0 := Nat.cast_ne_zero.mpr hlen
    simp [h, hlen, pyDivQ, hq]

theorem descFromPatterns_isSome (ps : List RE) :
    ∀ t : Str, (descFromPatterns ps t).isSome := by
  induction ps with
  | nil => intro t; rfl
  | cons p ps ih =>
    intro t
    unfold descFromPatterns
    cases hs : searchGroup p t 1 with
    | none => exact ih t
    | some g =>
      obtain ⟨r, hr⟩ := Option.isSome_iff_exists.mp
        (clean_isSome ((strip g).take 500))
      simp only [hr, Option.bind_eq_bind, Option.some_bind]
      split
      · exact ih t
      · rfl

theorem descFromLines_isSome (ls : List Str) : (descFromLines ls).isSome := by
  induction ls with
  | nil => rfl
  | cons line rest ih =>
    simp only [descFromLines]
    split
    · split
      · obtain ⟨r, hr⟩ := Option.isSome_iff_exists.mp
          (clean_isSome (strip line))
        simp only [hr, Option.bind_eq_bind, Option.some_bind]
        split
        · rfl
        · exact ih
      · exact ih
    · exact ih

theorem extract_meaningful_description_isSome (t : Str) :
    (extract_meaningful_description t).isSome := by
  unfold extract_meaningful_description
  obtain ⟨x, hx⟩ := Option.isSome_iff_exists.mp
    (descFromPatterns_isSome descPatterns t)
  simp only [hx, Option.bind_eq_bind, Option.some_bind]
  cases x with
  | some d => rfl
  | none =>
    obtain ⟨y, hy⟩ := Option.isSome_iff_exists.mp
      (descFromLines_isSome (splitOnChar '\n' (strip t)))
    simp only [hy, Option.some_bind]
    cases y with
    | some d => rfl
    | none =>
      obtain ⟨r, hr⟩ := Option.isSome_iff_exists.mp
        (clean_isSome ((strip t).take 500))
      simp only [hr, Option.some_bind]
      split <;> rfl

theorem resolveProjectName_isSome (pt : Str) :
    (resolveProjectName pt).isSome := by
  unfold resolveProjectName
  split
  · rfl
  · obtain ⟨fl, hfl⟩ := Option.isSome_iff_exists.mp
      (pyGet_zero_isSome _ (splitOnChar_ne_nil (Char.ofNat 10) (strip pt)))
    simp only [hfl, Option.bind_eq_bind, Option.some_bind]
    split
    · rfl
    · split
      · split <;> rfl
      · rfl

theorem buildProject_isSome (o : List Str → List Str) (i : Nat) (pt : Str) :
    (buildProject o i pt).isSome := by
  unfold buildProject
  obtain ⟨n, hn⟩ := Option.isSome_iff_exists.mp (resolveProjectName_isSome pt)
  obtain ⟨d, hd⟩ := Option.isSome_iff_exists.mp
    (extract_meaningful_description_isSome pt)
  simp only [hn, hd, Option.bind_eq_bind, Option.some_bind]
  rfl

theorem buildProjects_isSome (o : List Str → List Str) :
    ∀ l : List (Nat × Str), (buildProjects o l).isSome := by
  intro l
  induction l with
  | nil => rfl
  | cons x rest ih =>
    obtain ⟨i, pt⟩ := x
    unfold buildProjects
    split
    · exact ih
    · obtain ⟨p, hp⟩ := Option.isSome_iff_exists.mp (buildProject_isSome o i pt)
      obtain ⟨ps, hps⟩ := Option.isSome_iff_exists.mp ih
      simp [hp, hps]

theorem extract_projects_isSome (o : List Str → List Str) (text : Str) :
    (extract_projects o text).isSome := by
  unfold extract_projects
  exact buildProjects_isSome o _

theorem extract_name_isSome (text : Str) (lines : List Str) :
    (extract_name text lines).isSome := by
  unfold extract_name
  split
  · rfl
  · split
    · rfl
    · rename_i hne
      have : lines ≠ [] := by
        intro hl
        subst hl
        simp at hne
      obtain ⟨fl, hfl⟩ := Option.isSome_iff_exists.mp (pyGet_zero_isSome _ this)
      simp only [hfl, Option.bind_eq_bind, Option.some_bind]
      split <;> rfl

/-- Totality of the parse: every input yields a record. -/
theorem parse_resume_some (o : List Str → List Str) (text : Str) :
    ∃ r : Resume, parse_resume o text = some r := by
  obtain ⟨n, hn⟩ := Option.isSome_iff_exists.mp
    (extract_name_isSome text (splitOnChar '\n' text))
  obtain ⟨ps, hps⟩ := Option.isSome_iff_exists.mp (extract_projects_isSome o text)
  have h : (parse_resume o text).isSome := by
    simp only [parse_resume, hn, hps, Option.bind_eq_bind, Option.some_bind]
    rfl
  exact Option.isSome_iff_exists.mp h

end AR

/-- C1: for every input string (the ordering oracle of the interpreter's
set iteration quantified as well), `parse_resume` completes — no exception
path of the model is reachable — and returns a record with every field of
the Candidate Record present: the four scalar strings, the four skill
lists, and the (possibly empty) project and work-experience lists, as
enforced by the `Resume` structure. -/
theorem parse_resume_never_throws (o : List Str → List Str) (text : Str) :
    ∃ r : AR.Resume, AR.parse_resume o text = some r :=
  AR.parse_resume_some o text

namespace AR

open PyStr

theorem extract_tech_highlights_length (t : Str) (ts : List Str) :
    (extract_tech_highlights t ts).length ≤ 6 := by
  unfold extract_tech_highlights dedupHighlightsOp
  exact List.length_take_le _ _

theorem extract_personal_contribution_length (t role : Str) :
    (extract_personal_contribution t role).length ≤ 5 := by
  unfold extract_personal_contribution
  exact List.length_take_le _ _

theorem buildProject_fields (o : List Str → List Str) (i : Nat) (pt : Str)
    (p : Project) (h : buildProject o i pt = some p) :
    p.tech_highlights.length ≤ 6 ∧ p.personal_contribution.length ≤ 5 := by
  unfold buildProject at h
  rcases hn : resolveProjectName pt with _ | n
  · rw [hn] at h; simp at h
  · rcases hd : extract_meaningful_description pt with _ | d
    · rw [hn, hd] at h; simp at h
    · rw [hn, hd] at h
      simp only [Option.bind_eq_bind, Option.some_bind] at h
      have hp := (Option.some.inj h).symm
      subst hp
      constructor
      · exact extract_tech_highlights_length _ _
      · exact extract_personal_contribution_length _ _

theorem buildProjects_caps (o : List Str → List Str) :
    ∀ (l : List (Nat × Str)) (ps : List Project), buildProjects o l = some ps →
      ps.length ≤ l.length ∧
      ∀ p ∈ ps, p.tech_highlights.length ≤ 6 ∧
        p.personal_contribution.length ≤ 5 := by
  intro l
  induction l with
  | nil =>
    intro ps h
    have : ([] : List Project) = ps := Option.some.inj h
    subst this
    exact ⟨Nat.le_refl 0, by simp⟩
  | cons x rest ih =>
    intro ps h
    obtain ⟨i, pt⟩ := x
    unfold buildProjects at h
    split at h
    · obtain ⟨hlen, hcap⟩ := ih ps h
      exact ⟨Nat.le_succ_of_le hlen, hcap⟩
    · rcases hbp : buildProject o i pt with _ | p
      · rw [hbp] at h; simp at h
      · rw [hbp] at h
        simp only [Option.bind_eq_bind, Option.some_bind] at h
        rcases hbs : buildProjects o rest with _ | tail
        · rw [hbs] at h; simp at h
        · rw [hbs] at h
          simp only [Option.some_bind] at h
          have : p :: tail = ps := Option.some.inj h
          subst this
          obtain ⟨hlen, hcap⟩ := ih tail hbs
          refine ⟨by simpa using Nat.succ_le_succ hlen, ?_⟩
          intro q hq
          rcases List.mem_cons.mp hq with rfl | hq2
          · exact buildProject_fields o i pt q hbp
          · exact hcap q hq2

theorem extract_projects_caps (o : List Str → List Str) (text : Str)
    (ps : List Project) (h : extract_projects o text = some ps) :
    ps.length ≤ 5 ∧
    ∀ p ∈ ps, p.tech_highlights.length ≤ 6 ∧
      p.personal_contribution.length ≤ 5 := by
  simp only [extract_projects] at h
  obtain ⟨hlen, hcap⟩ := buildProjects_caps o _ ps h
  refine ⟨le_trans hlen ?_, hcap⟩
  rw [List.enum_length]
  exact List.length_take_le _ _

/-- The cap invariants of claim C2, as a decidable record check. -/
def capsOK (r : Resume) : Bool :=
  decide (r.projects.length ≤ 5) &&
  r.projects.all (fun p => decide (p.tech_highlights.length ≤ 6) &&
    decide (p.personal_contribution.length ≤ 5))

end AR

/-- C2: for every input (and every set-iteration ordering), the parsed
record satisfies the hard caps: at most 5 projects, and per project at most
6 technical highlights and at most 5 personal contributions.
(`Option.all` holds vacuously on `none`; C1 separately shows the parse
always returns `some`.) -/
theorem parse_resume_cap_invariants (o : List Str → List Str) (text : Str) :
    Option.all AR.capsOK (AR.parse_resume o text) = true := by
  obtain ⟨r, hr⟩ := AR.parse_resume_some o text
  rw [hr]
  simp only [Option.all]
  rcases hn : AR.extract_name text (PyStr.splitOnChar '\n' text) with _ | n
  · rw [AR.parse_resume, hn] at hr; simp at hr
  · rcases hp : AR.extract_projects o text with _ | ps
    · rw [AR.parse_resume, hn, hp] at hr; simp at hr
    · rw [AR.parse_resume, hn, hp] at hr
      simp only [Option.bind_eq_bind, Option.some_bind] at hr
      have hrec := Option.some.inj hr
      obtain ⟨hlen, hcap⟩ := AR.extract_projects_caps o text ps hp
      rw [← hrec]
      simp only [AR.capsOK, Bool.and_eq_true, decide_eq_true_eq,
        List.all_eq_true]
      exact ⟨hlen, fun p hmem => by
        obtain ⟨h1, h2⟩ := hcap p hmem
        simp [h1, h2]⟩

namespace AR

open PyStr

/-! ### Determinism up to set-iteration order (claim C10) -/

/-- Two project records that agree on every field, except that their
core-system lists may be permutations of one another (the only field fed
by a `list(set(...))` iteration). -/
def projectsAgree (p q : Project) : Prop :=
  p.name = q.name ∧ p.type = q.type ∧ p.role = q.role ∧
  p.description = q.description ∧ p.tech_stack = q.tech_stack ∧
  p.project_scale = q.project_scale ∧
  p.development_time = q.development_time ∧ p.team_size = q.team_size ∧
  p.core_systems.Perm q.core_systems ∧
  p.tech_highlights = q.tech_highlights ∧
  p.personal_contribution = q.personal_contribution ∧
  p.inferred_core_systems = q.inferred_core_systems ∧
  p.complexity_score = q.complexity_score ∧
  p.complexity_level = q.complexity_level ∧
  p.complexity_reason = q.complexity_reason

/-- Two parsed records that agree field by field, with projects matched
pointwise up to a permutation of each core-system list. -/
def resumesAgree (r s : Resume) : Prop :=
  r.name = s.name ∧ r.position = s.position ∧
  r.experience_years = s.experience_years ∧ r.education = s.education ∧
  r.skills = s.skills ∧ List.Forall₂ projectsAgree r.projects s.projects ∧
  r.work_experience = s.work_experience

theorem infer_core_systems_perm (o1 o2 : List Str → List Str)
    (h1 : ∀ l, (o1 l).Perm l) (h2 : ∀ l, (o2 l).Perm l)
    (pt role : Str) (ts : List Str) :
    (infer_core_systems_by_context o1 pt role ts).Perm
      (infer_core_systems_by_context o2 pt role ts) := by
  simp only [infer_core_systems_by_context]
  exact (h1 _).trans (h2 _).symm

theorem inferredCoreSystems_agree (o1 o2 : List Str → List Str)
    (h1 : ∀ l, (o1 l).Perm l) (h2 : ∀ l, (o2 l).Perm l)
    (pt role : Str) (ts ds : List Str) :
    (inferredCoreSystems o1 pt role ts ds).1.Perm
      (inferredCoreSystems o2 pt role ts ds).1 ∧
    (inferredCoreSystems o1 pt role ts ds).2 =
      (inferredCoreSystems o2 pt role ts ds).2 := by
  have hperm := infer_core_systems_perm o1 o2 h1 h2 pt role ts
  have hiff : (infer_core_systems_by_context o1 pt role ts).isEmpty
      = (infer_core_systems_by_context o2 pt role ts).isEmpty := by
    have hlen := hperm.length_eq
    rcases e1 : infer_core_systems_by_context o1 pt role ts with _ | ⟨a, as⟩ <;>
      rcases e2 : infer_core_systems_by_context o2 pt role ts with _ | ⟨b, bs⟩ <;>
        simp_all
  by_cases hds : ds.isEmpty = true
  · by_cases hie : (infer_core_systems_by_context o1 pt role ts).isEmpty = true
    · have hie2 : (infer_core_systems_by_context o2 pt role ts).isEmpty = true :=
        hiff ▸ hie
      constructor
      · simp [inferredCoreSystems, hds, hie, hie2]
      · simp [inferredCoreSystems, hds, hie, hie2]
    · have hie2 : ¬ (infer_core_systems_by_context o2 pt role ts).isEmpty = true :=
        fun h => hie (by rw [hiff]; exact h)
      constructor
      · simpa [inferredCoreSystems, hds, hie, hie2] using hperm
      · simp [inferredCoreSystems, hds, hie, hie2]
  · constructor
    · simp [inferredCoreSystems, hds]
    · simp [inferredCoreSystems, hds]

/-- The complexity analysis reads the core-system list only through its
length, so changing that list (and the inferred marker) without changing
its length leaves the result unchanged. -/
theorem analyze_project_complexity_congr (p : Project) (cs : List Str)
    (b : Bool) (h : cs.length = p.core_systems.length) :
    analyze_project_complexity
        { p with core_systems := cs, inferred_core_systems := b } =
      analyze_project_complexity p := by
  simp only [analyze_project_complexity]
  rw [h]

theorem buildProjectWith_agree (i : Nat) (pt : Str) (n : Option Str) (d : Str)
    (c1 c2 : List Str × Bool) (hperm : c1.1.Perm c2.1) (hflag : c1.2 = c2.2) :
    projectsAgree (buildProjectWith i pt n d c1)
      (buildProjectWith i pt n d c2) := by
  have hlen : c2.1.length = (buildProjectBase i pt n d c1).core_systems.length := by
    have hb : (buildProjectBase i pt n d c1).core_systems = c1.1 := rfl
    rw [hb]
    exact hperm.length_eq.symm
  have h2 : buildProjectBase i pt n d c2 =
      { buildProjectBase i pt n d c1 with
          core_systems := c2.1, inferred_core_systems := c2.2 } := rfl
  have hC : analyze_project_complexity (buildProjectBase i pt n d c2) =
      analyze_project_complexity (buildProjectBase i pt n d c1) := by
    rw [h2]
    exact analyze_project_complexity_congr (buildProjectBase i pt n d c1)
      c2.1 c2.2 hlen
  refine ⟨rfl, rfl, rfl, rfl, rfl, rfl, rfl, rfl, ?_, rfl, rfl, ?_, ?_, ?_, ?_⟩
  · exact hperm
  · exact hflag
  · exact (congrArg Complexity.score hC).symm
  · exact (congrArg Complexity.level hC).symm
  · exact (congrArg Complexity.reason hC).symm

theorem buildProject_agree (o1 o2 : List Str → List Str)
    (h1 : ∀ l, (o1 l).Perm l) (h2 : ∀ l, (o2 l).Perm l)
    (i : Nat) (pt : Str) (p q : Project)
    (hp : buildProject o1 i pt = some p) (hq : buildProject o2 i pt = some q) :
    projectsAgree p q := by
  unfold buildProject at hp hq
  rcases hn : resolveProjectName pt with _ | n
  · rw [hn] at hp; simp at hp
  · rcases hd : extract_meaningful_description pt with _ | d
    · rw [hn, hd] at hp; simp at hp
    · rw [hn, hd] at hp hq
      simp only [Option.bind_eq_bind, Option.some_bind] at hp hq
      have hp2 := (Option.some.inj hp).symm
      have hq2 := (Option.some.inj hq).symm
      subst hp2
      subst hq2
      refine buildProjectWith_agree i pt n d _ _ ?_ ?_
      · exact (inferredCoreSystems_agree o1 o2 h1 h2 pt _ _ _).1
      · exact (inferredCoreSystems_agree o1 o2 h1 h2 pt _ _ _).2

theorem buildProjects_agree (o1 o2 : List Str → List Str)
    (h1 : ∀ l, (o1 l).Perm l) (h2 : ∀ l, (o2 l).Perm l) :
    ∀ (l : List (Nat × Str)) (ps qs : List Project),
      buildProjects o1 l = some ps → buildProjects o2 l = some qs →
      List.Forall₂ projectsAgree ps qs := by
  intro l
  induction l with
  | nil =>
    intro ps qs hps hqs
    simp only [buildProjects] at hps hqs
    rw [← Option.some.inj hps, ← Option.some.inj hqs]
    exact List.Forall₂.nil
  | cons x rest ih =>
    obtain ⟨i, pt⟩ := x
    intro ps qs hps hqs
    by_cases hskip : (strip pt).length < 20
    · have e1 : buildProjects o1 ((i, pt) :: rest) = buildProjects o1 rest := by
        simp only [buildProjects]
        rw [if_pos hskip]
      have e2 : buildProjects o2 ((i, pt) :: rest) = buildProjects o2 rest := by
        simp only [buildProjects]
        rw [if_pos hskip]
      rw [e1] at hps
      rw [e2] at hqs
      exact ih ps qs hps hqs
    · obtain ⟨p1, hbp1⟩ := Option.isSome_iff_exists.mp (buildProject_isSome o1 i pt)
      obtain ⟨p2, hbp2⟩ := Option.isSome_iff_exists.mp (buildProject_isSome o2 i pt)
      obtain ⟨ps1, hbps1⟩ := Option.isSome_iff_exists.mp (buildProjects_isSome o1 rest)
      obtain ⟨ps2, hbps2⟩ := Option.isSome_iff_exists.mp (buildProjects_isSome o2 rest)
      have e1 : buildProjects o1 ((i, pt) :: rest) = some (p1 :: ps1) := by
        simp only [buildProjects]
        rw [if_neg hskip]
        simp [hbp1, hbps1]
      have e2 : buildProjects o2 ((i, pt) :: rest) = some (p2 :: ps2) := by
        simp only [buildProjects]
        rw [if_neg hskip]
        simp [hbp2, hbps2]
      rw [e1] at hps
      rw [e2] at hqs
      rw [← Option.some.inj hps, ← Option.some.inj hqs]
      exact List.Forall₂.cons
        (buildProject_agree o1 o2 h1 h2 i pt p1 p2 hbp1 hbp2)
        (ih ps1 ps2 hbps1 hbps2)

theorem extract_projects_agree (o1 o2 : List Str → List Str)
    (h1 : ∀ l, (o1 l).Perm l) (h2 : ∀ l, (o2 l).Perm l)
    (text : Str) (ps qs : List Project)
    (hps : extract_projects o1 text = some ps)
    (hqs : extract_projects o2 text = some qs) :
    List.Forall₂ projectsAgree ps qs := by
  simp only [extract_projects] at hps hqs
  exact buildProjects_agree o1 o2 h1 h2 _ ps qs hps hqs

end AR

/-- The record parsed from the empty input. -/
def c10pd : AR.Resume :=
  { name := AR.L "未知", position := AR.L "游戏开发工程师"
    experience_years := AR.L "未知", education := []
    skills := ⟨[], [], [], []⟩, projects := [], work_experience := [] }

/-- The analysis derived from `c10pd`. -/
def c10an : AR.Analysis :=
  { skill_levels := []
    advantages := [AR.L "基础技能符合岗位要求"]
    risks := [AR.L "未见架构/设计模式相关经验，需验证代码组织能力"]
    recommendation_level := AR.L "D"
    overall_assessment := AR.L "项目经验不足，建议了解学习能力和潜力"
    suitable_positions := [AR.L "游戏开发工程师"] }

/-- C10 counterexample: the rendered skill report embeds the wall-clock
generation time (`datetime.now()`, report line 评估时间), so two runs on
the same input — here the empty resume, which parses and analyzes
identically — produce byte-different documents when the clock has moved
by one second. Random sampling plays no part in this file. -/
theorem determinism_counterexample :
    AR.parse_resume id [] = some c10pd ∧
    AR.analyze_skills c10pd = some c10an ∧
    AR.generate_skill_report c10pd c10an (AR.L "20250101")
        (AR.L "2025-01-01 09:00:00") ≠
      AR.generate_skill_report c10pd c10an (AR.L "20250101")
        (AR.L "2025-01-01 09:00:01") := by
  refine ⟨by decide, by decide, by decide⟩

/-- C10 (amended): with the generation timestamps fixed, the remaining
run-to-run variation is the iteration order of `list(set(...))` in
`infer_core_systems_by_context`. For the same input text, two parses under
any two set-iteration orders (modeled as reorderings `o1`, `o2` that
permute their argument) yield Candidate Records that agree on every field,
with each project's core-system list determined up to permutation — not
byte-identical, as the claim states: the report also embeds
`datetime.now()`, and the question-list document further depends on random
sampling and file I/O outside this model. -/
theorem determinism_up_to_order (o1 o2 : List Str → List Str)
    (h1 : ∀ l, (o1 l).Perm l) (h2 : ∀ l, (o2 l).Perm l)
    (text : Str) (r1 r2 : AR.Resume)
    (hr1 : AR.parse_resume o1 text = some r1)
    (hr2 : AR.parse_resume o2 text = some r2) :
    AR.resumesAgree r1 r2 := by
  simp only [AR.parse_resume] at hr1 hr2
  rcases hn : AR.extract_name text (PyStr.splitOnChar '\n' text) with _ | n
  · rw [hn] at hr1; simp at hr1
  · rcases hp1 : AR.extract_projects o1 text with _ | ps
    · rw [hn, hp1] at hr1; simp at hr1
    · rcases hp2 : AR.extract_projects o2 text with _ | qs
      · rw [hn, hp2] at hr2; simp at hr2
      · rw [hn, hp1] at hr1
        rw [hn, hp2] at hr2
        simp only [Option.bind_eq_bind, Option.some_bind] at hr1 hr2
        have e1 := (Option.some.inj hr1).symm
        have e2 := (Option.some.inj hr2).symm
        subst e1
        subst e2
        refine ⟨rfl, rfl, rfl, rfl, rfl, ?_, rfl⟩
        exact AR.extract_projects_agree o1 o2 h1 h2 text ps qs hp1 hp2

/-- Witness: the amended determinism theorem applied to the empty input
with the identity iteration order on both runs. -/
theorem determinism_up_to_order_witness : AR.resumesAgree c10pd c10pd :=
  determinism_up_to_order id id (fun l => List.Perm.refl l)
    (fun l => List.Perm.refl l) [] c10pd c10pd (by decide) (by decide)
